import Mathlib

/-!
Verification development for the Shopify data-ingestion service
(`server/src/services/shopifyService.js`, the cron scheduler and the
events route).  JavaScript strings are modelled as `List Char`; JSON-ish
runtime values as the inductive `JSVal`; fallible JavaScript code (code
that can throw a `TypeError`) as `Except Unit`.  Mongo/Mongoose collections
are modelled as lists of documents, a document being an association list
of field name to value.
-/

set_option autoImplicit false

namespace XenoFde

/-- JavaScript strings are modelled as lists of characters. -/
abbrev JStr := List Char

/-! ### Generic string helpers (models of the JS string builtins used) -/

/-- Model of the character class removed by `String.prototype.trim` (ASCII
whitespace; the rare Unicode space characters are out of model scope). -/
def jsSpace (c : Char) : Bool :=
  c = ' ' || c = '\t' || c = '\n' || c = '\r' || c = Char.ofNat 11 || c = Char.ofNat 12

/-- Model of `String.prototype.trim`. -/
def jsTrim (s : JStr) : JStr :=
  ((s.dropWhile jsSpace).reverse.dropWhile jsSpace).reverse

/-- Model of `String.prototype.toLowerCase` on one character (ASCII range;
non-ASCII case mapping is out of model scope). -/
def lowerChar (c : Char) : Char :=
  if 'A' ≤ c ∧ c ≤ 'Z' then Char.ofNat (c.toNat + 32) else c

/-- Model of `String.prototype.toLowerCase`. -/
def jsToLower (s : JStr) : JStr := s.map lowerChar

/-- Is the first list a prefix of the second?  (A reimplementation of
`List.isPrefixOf` that pattern-matches the prefix first, so that it reduces
definitionally when only an initial segment of the big list is known.) -/
def isPre : JStr → JStr → Bool
  | [], _ => true
  | _ :: _, [] => false
  | c :: cs, d :: ds => c == d && isPre cs ds

/-- `isPre pat s ∨ pat occurs later in s`: model of `String.prototype.includes`. -/
def hasSub : JStr → JStr → Bool
  | [], pat => pat.isEmpty
  | s@(_ :: t), pat => isPre pat s || hasSub t pat

/-- Split a string around the first occurrence of `pat`, returning the parts
before and after it (`none` when `pat` does not occur). -/
def splitAtSub : JStr → JStr → Option (JStr × JStr)
  | [], pat => if pat.isEmpty then some ([], []) else none
  | s@(c :: t), pat =>
    if isPre pat s then some ([], s.drop pat.length)
    else (splitAtSub t pat).map (fun p => (c :: p.1, p.2))

/-- Model of `String.prototype.split` with a one-character separator. -/
def splitOnCharAux (sep : Char) : JStr → JStr → List JStr
  | [], acc => [acc.reverse]
  | c :: cs, acc =>
    if c = sep then acc.reverse :: splitOnCharAux sep cs []
    else splitOnCharAux sep cs (c :: acc)

/-- Split a string on a separator character (as `"a,b".split(',')`). -/
def splitOnChar (sep : Char) (s : JStr) : List JStr := splitOnCharAux sep s []

/-- Everything after the last `'@'` (the whole string when there is none);
used by the URL model to skip the userinfo part of an authority. -/
def afterLastAt (s : JStr) : JStr :=
  (s.reverse.takeWhile (fun c => c ≠ '@')).reverse

/-! ### Association lists (JS objects / Mongo documents / JS `Map`s) -/

/-- First value stored under key `k`. -/
def assocGet {α β : Type} [DecidableEq α] (l : List (α × β)) (k : α) : Option β :=
  (l.find? (fun kv => kv.1 = k)).map (fun kv => kv.2)

/-- Set key `k` to `v`: replace the first entry with that key in place, or
append a new entry (models JS object assignment and `Map.prototype.set`). -/
def assocSet {α β : Type} [DecidableEq α] : List (α × β) → α → β → List (α × β)
  | [], k, v => [(k, v)]
  | kv :: rest, k, v =>
    if kv.1 = k then (k, v) :: rest else kv :: assocSet rest k v

/-- The keys of an association list. -/
def assocKeys {α β : Type} (l : List (α × β)) : List α := l.map (fun kv => kv.1)

/-! ### JavaScript runtime values -/

/-- A JavaScript number, as a decimal `mant / 10 ^ exp`.  All numbers the
service handles come from JSON integers or decimal monetary strings, so
decimals suffice; `normNum` keeps the representation unique (no trailing
factor of ten), matching JS value equality and JS number formatting. -/
structure JNum where
  mant : Int
  exp : Nat
  deriving DecidableEq

/-- Strip factors of ten: the unique representative of `m / 10 ^ e`. -/
def normNum : Int → Nat → JNum
  | m, 0 => ⟨m, 0⟩
  | m, e + 1 => if m % 10 = 0 then normNum (m / 10) e else ⟨m, e + 1⟩

/-- An integer-valued `JNum`. -/
def jint (n : Int) : JNum := ⟨n, 0⟩

/-- JS number formatting: integers plainly, decimals with a point and no
trailing zeros (which the normalized representation guarantees). -/
def jnumToJStr (q : JNum) : JStr :=
  if q.exp = 0 then (Int.repr q.mant).data
  else
    let digits := (Nat.repr q.mant.natAbs).data
    let digits2 := if digits.length ≤ q.exp then
        List.replicate (q.exp + 1 - digits.length) '0' ++ digits
      else digits
    (if q.mant < 0 then ['-'] else []) ++
      digits2.take (digits2.length - q.exp) ++ '.' :: digits2.drop (digits2.length - q.exp)

/-- A JSON-ish JavaScript runtime value.  `undef` is `undefined`; Mongo
`ObjectId`s (the `shop._id` values threaded through the service) are
modelled as numbers. -/
inductive JSVal where
  | undef
  | jnull
  | jbool (b : Bool)
  | jnum (q : JNum)
  | jstr (s : JStr)
  | jarr (xs : List JSVal)
  | jobj (fields : List (JStr × JSVal))

mutual

/-- Decidable equality on `JSVal` (the `deriving` handler does not support
nested inductives). -/
def deqVal : (a b : JSVal) → Decidable (a = b)
  | .undef, .undef => isTrue rfl
  | .undef, .jnull => isFalse (fun h => JSVal.noConfusion h)
  | .undef, .jbool _ => isFalse (fun h => JSVal.noConfusion h)
  | .undef, .jnum _ => isFalse (fun h => JSVal.noConfusion h)
  | .undef, .jstr _ => isFalse (fun h => JSVal.noConfusion h)
  | .undef, .jarr _ => isFalse (fun h => JSVal.noConfusion h)
  | .undef, .jobj _ => isFalse (fun h => JSVal.noConfusion h)
  | .jnull, .undef => isFalse (fun h => JSVal.noConfusion h)
  | .jnull, .jnull => isTrue rfl
  | .jnull, .jbool _ => isFalse (fun h => JSVal.noConfusion h)
  | .jnull, .jnum _ => isFalse (fun h => JSVal.noConfusion h)
  | .jnull, .jstr _ => isFalse (fun h => JSVal.noConfusion h)
  | .jnull, .jarr _ => isFalse (fun h => JSVal.noConfusion h)
  | .jnull, .jobj _ => isFalse (fun h => JSVal.noConfusion h)
  | .jbool _, .undef => isFalse (fun h => JSVal.noConfusion h)
  | .jbool _, .jnull => isFalse (fun h => JSVal.noConfusion h)
  | .jbool a, .jbool b =>
    if h : a = b then isTrue (by rw [h]) else isFalse (fun he => h (JSVal.jbool.inj he))
  | .jbool _, .jnum _ => isFalse (fun h => JSVal.noConfusion h)
  | .jbool _, .jstr _ => isFalse (fun h => JSVal.noConfusion h)
  | .jbool _, .jarr _ => isFalse (fun h => JSVal.noConfusion h)
  | .jbool _, .jobj _ => isFalse (fun h => JSVal.noConfusion h)
  | .jnum _, .undef => isFalse (fun h => JSVal.noConfusion h)
  | .jnum _, .jnull => isFalse (fun h => JSVal.noConfusion h)
  | .jnum _, .jbool _ => isFalse (fun h => JSVal.noConfusion h)
  | .jnum a, .jnum b =>
    if h : a = b then isTrue (by rw [h]) else isFalse (fun he => h (JSVal.jnum.inj he))
  | .jnum _, .jstr _ => isFalse (fun h => JSVal.noConfusion h)
  | .jnum _, .jarr _ => isFalse (fun h => JSVal.noConfusion h)
  | .jnum _, .jobj _ => isFalse (fun h => JSVal.noConfusion h)
  | .jstr _, .undef => isFalse (fun h => JSVal.noConfusion h)
  | .jstr _, .jnull => isFalse (fun h => JSVal.noConfusion h)
  | .jstr _, .jbool _ => isFalse (fun h => JSVal.noConfusion h)
  | .jstr _, .jnum _ => isFalse (fun h => JSVal.noConfusion h)
  | .jstr a, .jstr b =>
    if h : a = b then isTrue (by rw [h]) else isFalse (fun he => h (JSVal.jstr.inj he))
  | .jstr _, .jarr _ => isFalse (fun h => JSVal.noConfusion h)
  | .jstr _, .jobj _ => isFalse (fun h => JSVal.noConfusion h)
  | .jarr _, .undef => isFalse (fun h => JSVal.noConfusion h)
  | .jarr _, .jnull => isFalse (fun h => JSVal.noConfusion h)
  | .jarr _, .jbool _ => isFalse (fun h => JSVal.noConfusion h)
  | .jarr _, .jnum _ => isFalse (fun h => JSVal.noConfusion h)
  | .jarr _, .jstr _ => isFalse (fun h => JSVal.noConfusion h)
  | .jarr xs, .jarr ys =>
    match deqValList xs ys with
    | isTrue h => isTrue (by rw [h])
    | isFalse h => isFalse (fun he => h (JSVal.jarr.inj he))
  | .jarr _, .jobj _ => isFalse (fun h => JSVal.noConfusion h)
  | .jobj _, .undef => isFalse (fun h => JSVal.noConfusion h)
  | .jobj _, .jnull => isFalse (fun h => JSVal.noConfusion h)
  | .jobj _, .jbool _ => isFalse (fun h => JSVal.noConfusion h)
  | .jobj _, .jnum _ => isFalse (fun h => JSVal.noConfusion h)
  | .jobj _, .jstr _ => isFalse (fun h => JSVal.noConfusion h)
  | .jobj _, .jarr _ => isFalse (fun h => JSVal.noConfusion h)
  | .jobj fs, .jobj gs =>
    match deqValFields fs gs with
    | isTrue h => isTrue (by rw [h])
    | isFalse h => isFalse (fun he => h (JSVal.jobj.inj he))

/-- Decidable equality on lists of `JSVal`. -/
def deqValList : (xs ys : List JSVal) → Decidable (xs = ys)
  | [], [] => isTrue rfl
  | [], _ :: _ => isFalse (fun h => List.noConfusion h)
  | _ :: _, [] => isFalse (fun h => List.noConfusion h)
  | x :: xs, y :: ys =>
    match deqVal x y, deqValList xs ys with
    | isTrue h1, isTrue h2 => isTrue (by rw [h1, h2])
    | isFalse h1, _ => isFalse (fun he => h1 (List.cons.inj he).1)
    | _, isFalse h2 => isFalse (fun he => h2 (List.cons.inj he).2)

/-- Decidable equality on field lists of `JSVal`. -/
def deqValFields : (fs gs : List (JStr × JSVal)) → Decidable (fs = gs)
  | [], [] => isTrue rfl
  | [], _ :: _ => isFalse (fun h => List.noConfusion h)
  | _ :: _, [] => isFalse (fun h => List.noConfusion h)
  | (k1, v1) :: fs, (k2, v2) :: gs =>
    match (inferInstance : DecidableEq JStr) k1 k2, deqVal v1 v2, deqValFields fs gs with
    | isTrue h0, isTrue h1, isTrue h2 => isTrue (by rw [h0, h1, h2])
    | isFalse h0, _, _ =>
      isFalse (fun he => h0 (congrArg Prod.fst (List.cons.inj he).1))
    | _, isFalse h1, _ =>
      isFalse (fun he => h1 (congrArg Prod.snd (List.cons.inj he).1))
    | _, _, isFalse h2 => isFalse (fun he => h2 (List.cons.inj he).2)

end

instance : DecidableEq JSVal := deqVal

instance : Inhabited JSVal := ⟨.undef⟩

instance {ε α : Type} [DecidableEq ε] [DecidableEq α] : DecidableEq (Except ε α) :=
  fun a b =>
    match a, b with
    | .ok x, .ok y =>
      if h : x = y then isTrue (by rw [h]) else isFalse (fun he => h (Except.ok.inj he))
    | .error x, .error y =>
      if h : x = y then isTrue (by rw [h]) else isFalse (fun he => h (Except.error.inj he))
    | .ok _, .error _ => isFalse (fun he => Except.noConfusion he)
    | .error _, .ok _ => isFalse (fun he => Except.noConfusion he)

/-- JavaScript truthiness (`NaN` is unrepresentable in `jnum`, a model
boundary irrelevant to JSON payloads). -/
def jsTruthy : JSVal → Bool
  | .undef => false
  | .jnull => false
  | .jbool b => b
  | .jnum q => q.mant ≠ 0
  | .jstr s => s ≠ []
  | .jarr _ => true
  | .jobj _ => true

/-- String form of one array element under `Array.prototype.toString`:
`null`/`undefined` join as the empty string.  Nested arrays/objects render
as the empty string — a model boundary: the service never stringifies a
value containing a nested array (`normalizeTags` handles arrays before any
string coercion). -/
def scalarToString : JSVal → JStr
  | .undef => []
  | .jnull => []
  | .jbool true => "true".data
  | .jbool false => "false".data
  | .jnum q => jnumToJStr q
  | .jstr s => s
  | .jarr _ => []
  | .jobj _ => "[object Object]".data

/-- Model of the JS `String(...)` coercion for the values above. -/
def jsToString : JSVal → JStr
  | .undef => "undefined".data
  | .jnull => "null".data
  | .jbool true => "true".data
  | .jbool false => "false".data
  | .jnum q => jnumToJStr q
  | .jstr s => s
  | .jarr xs => List.intercalate [','] (xs.map scalarToString)
  | .jobj _ => "[object Object]".data

/-- The natural number denoted by a digit string. -/
def digitsVal (ds : JStr) : Nat := ds.foldl (fun n c => n * 10 + (c.toNat - 48)) 0

/-- Decimal-literal parser backing the `Number(...)` model: optional sign,
digits, optional fraction.  Hexadecimal, exponent and `Infinity` forms are
out of model scope (none appear in monetary payload fields). -/
def parseDecimal (s : JStr) : Option JNum :=
  let signBody : Bool × JStr :=
    match s with
    | '+' :: rest => (false, rest)
    | '-' :: rest => (true, rest)
    | _ => (false, s)
  let intPart := signBody.2.takeWhile Char.isDigit
  let rest := signBody.2.dropWhile Char.isDigit
  match rest with
  | [] =>
    if intPart = [] then none
    else some (normNum (if signBody.1 then -(digitsVal intPart : Int) else digitsVal intPart) 0)
  | '.' :: fracRest =>
    let fracPart := fracRest.takeWhile Char.isDigit
    let tail := fracRest.dropWhile Char.isDigit
    if tail ≠ [] then none
    else if intPart = [] ∧ fracPart = [] then none
    else
      let mag : Nat := digitsVal intPart * 10 ^ fracPart.length + digitsVal fracPart
      some (normNum (if signBody.1 then -(mag : Int) else mag) fracPart.length)
  | _ => none

/-- Model of the JS `Number(...)` coercion; `none` stands for `NaN`.
A whitespace-only string converts to `0`, as in JS.  Arrays and objects are
declared non-numeric (a model simplification: JS would first stringify them;
no claim touches that corner). -/
def jsNumber : JSVal → Option JNum
  | .jnum q => some q
  | .jbool b => some (if b then jint 1 else jint 0)
  | .jnull => some (jint 0)
  | .undef => none
  | .jstr s => if jsTrim s = [] then some (jint 0) else parseDecimal (jsTrim s)
  | .jarr _ => none
  | .jobj _ => none

/-- `toNumber` (shopifyService.js lines 36–40): `null`/`undefined`/`''`
map to `undefined`, as does a `NaN` conversion; anything else yields the
converted number. -/
def toNumber (value : JSVal) : Option JNum :=
  if value = .jnull ∨ value = .undef ∨ value = .jstr [] then none
  else jsNumber value

/-- Property access `v[k]` in the error monad: throws exactly when the
receiver is `null`/`undefined`; yields `undefined` for absent keys and for
non-object receivers (as JS does for the identifier keys used here). -/
def jsGet : JSVal → JStr → Except Unit JSVal
  | .jobj fields, k => .ok ((assocGet fields k).getD .undef)
  | .jnull, _ => .error ()
  | .undef, _ => .error ()
  | _, _ => .ok (.undef)

/-- Optional chaining `v?.[k]`. -/
def jsGetOpt (v : JSVal) (k : JStr) : Except Unit JSVal :=
  if v = .jnull ∨ v = .undef then .ok .undef else jsGet v k

/-- `t.trim()` on an array element: throws a `TypeError` unless the element
is a string. -/
def trimTag : JSVal → Except Unit JStr
  | .jstr s => .ok (jsTrim s)
  | _ => .error ()

/-- `normalizeTags` (shopifyService.js lines 42–49). -/
def normalizeTags (tags : JSVal) : Except Unit (List JStr) :=
  if ¬ jsTruthy tags then .ok []
  else match tags with
  | .jarr xs => do
      let ts ← xs.mapM trimTag
      .ok (ts.filter (fun t => t ≠ []))
  | v => .ok (((splitOnChar ',' (jsToString v)).map jsTrim).filter (fun t => t ≠ []))

/-! ### WHATWG URL model

The service calls `new URL(...)` for two purposes only: extracting
`url.hostname` (domain normalization) and `url.searchParams.get('page_info')`
(pagination cursor).  The model below parses `scheme://[userinfo@]host[:port]`
followed by path/query/fragment, keeping just the parts those two reads need.
Percent-decoding and IDN mapping are out of model scope (never exercised by
admin hostnames or opaque cursors). -/

/-- Valid scheme characters after the leading letter. -/
def validSchemeChar (c : Char) : Bool :=
  c.isAlpha || c.isDigit || c == '+' || c == '-' || c == '.'

/-- The WHATWG forbidden host code points (controls and space folded into
`< 0x21`). -/
def isForbiddenHostChar (c : Char) : Bool :=
  c.toNat < 0x21 || c == '#' || c == '/' || c == ':' || c == '<' || c == '>' ||
  c == '?' || c == '@' || c == '[' || c == '\\' || c == ']' || c == '^' || c == '|'

/-- Characters ending the authority component. -/
def authDelim (c : Char) : Bool := c == '/' || c == '?' || c == '#'

/-- The parts of a parsed URL this development reads. -/
structure JsURL where
  scheme : JStr
  host : JStr
  port : JStr
  query : JStr
  deriving DecidableEq

def schemeSep : JStr := "://".data

/-- The authority component: everything after `scheme://` up to the first
`/`, `?` or `#`. -/
def urlAuthority (rest : JStr) : JStr := rest.takeWhile (fun ch => !authDelim ch)

/-- The host: the authority minus userinfo (up to the last `@`) and minus
the port (from the first `:`). -/
def urlHost (rest : JStr) : JStr :=
  (afterLastAt (urlAuthority rest)).takeWhile (fun ch => ch != ':')

/-- The port digits after the host. -/
def urlPort (rest : JStr) : JStr :=
  ((afterLastAt (urlAuthority rest)).dropWhile (fun ch => ch != ':')).drop 1

/-- The query: after the first `?` of the pre-fragment part. -/
def urlQuery (rest : JStr) : JStr :=
  (((rest.drop (urlAuthority rest).length).takeWhile (fun ch => ch != '#')).dropWhile
    (fun ch => ch != '?')).drop 1

/-- Model of `new URL(s)`: `none` is a thrown `TypeError`.  The scheme must
start with a letter; the host must be non-empty and free of forbidden code
points; the port must be numeric (or empty). -/
def parseURL (s : JStr) : Option JsURL :=
  match splitAtSub s schemeSep with
  | none => none
  | some (scheme, rest) =>
    match scheme with
    | [] => none
    | c :: _ =>
      if ¬ c.isAlpha then none
      else if ¬ scheme.all validSchemeChar then none
      else if urlHost rest = [] then none
      else if (urlHost rest).any isForbiddenHostChar then none
      else if ¬ (urlPort rest).all Char.isDigit then none
      else some ⟨scheme, urlHost rest, urlPort rest, urlQuery rest⟩

/-- Model of `url.searchParams.get(key)`: first `&`-separated pair whose key
matches; the value is everything after the first `'='` (empty when there is
none). -/
def searchParamGet (query : JStr) (key : JStr) : Option JStr :=
  let pairs := (splitOnChar '&' query).filter (fun p => !p.isEmpty)
  (pairs.find? (fun p => p.takeWhile (fun c => c != '=') == key)).map
    (fun p => (p.dropWhile (fun c => c != '=')).drop 1)

/-! ### parsePageInfo (shopifyService.js lines 67–78) -/

def relNextPat : JStr := "rel=\"next\"".data

def pageInfoKey : JStr := "page_info".data

/-- `parsePageInfo`: split the `link` header on commas, find the entry
marked `rel="next"`, strip `<`/`>` from its URL part, and read its
`page_info` query parameter. -/
def parsePageInfo (linkHeader : Option JStr) : Option JStr :=
  match linkHeader with
  | none => none
  | some l =>
    if l = [] then none
    else
      match (splitOnChar ',' l).find? (fun part => hasSub part relNextPat) with
      | none => none
      | some nextLink =>
        let urlPart :=
          (jsTrim ((splitOnChar ';' nextLink).headD [])).filter (fun c => c != '<' && c != '>')
        match parseURL urlPart with
        | none => none
        | some u => searchParamGet u.query pageInfoKey

/-! ### normalizeShopDomain (shopifyService.js lines 11–34) -/

def shopifySuffix : JStr := ".myshopify.com".data

/-- `new URL(trimmed.includes('://') ? trimmed : 'https://' + trimmed)`. -/
def domainParse (trimmed : JStr) : Option JsURL :=
  if hasSub trimmed schemeSep then parseURL trimmed
  else parseURL ("https://".data ++ trimmed)

/-- Lowercase the parsed host and append the platform suffix when it has no
dot (the bare-subdomain case). -/
def suffixedHost (u : JsURL) : JStr :=
  if jsToLower u.host ≠ [] ∧ ¬ (jsToLower u.host).contains '.' then
    jsToLower u.host ++ shopifySuffix
  else jsToLower u.host

/-- `normalizeShopDomain`: trim, parse as a URL (prepending `https://` when
no scheme separator is present), lowercase the host, append the platform
suffix to a bare subdomain, and accept only hosts ending in the suffix. -/
def normalizeShopDomain (rawDomain : JStr) : Option JStr :=
  if rawDomain = [] then none
  else
    match domainParse (jsTrim rawDomain) with
    | none => none
    | some u =>
      if shopifySuffix.isSuffixOf (suffixedHost u) then some (suffixedHost u) else none

/-! ### Scheduler failure handling (scheduler source, `markShopError` and the
per-shop `catch` block of the cron sweep) -/

inductive ShopStatus where
  | active
  | paused
  deriving DecidableEq

/-- The slice of a `Shop` document the scheduler's failure path touches. -/
structure SchedShop where
  status : ShopStatus
  metadata : List (JStr × JStr)
  deriving DecidableEq

/-- An error as the scheduler sees it: optional HTTP status (absent for
network failures and plain `Error`s) plus a message. -/
structure SyncError where
  status : Option Nat
  message : JStr

def lastErrorKey : JStr := "lastError".data
def lastErrorStatusKey : JStr := "lastErrorStatus".data
def lastErrorAtKey : JStr := "lastErrorAt".data

/-- `String(err.status || '')`: absent (or zero) status renders as the empty
string. -/
def statusRepr : Option Nat → JStr
  | none => []
  | some n => if n = 0 then [] else (Nat.repr n).data

/-- `markShopError`: pause the shop and record the three diagnostic
metadata entries (`now` stands for `new Date().toISOString()`). -/
def markShopError (shop : SchedShop) (err : SyncError) (now : JStr) : SchedShop :=
  { status := .paused,
    metadata :=
      assocSet
        (assocSet (assocSet shop.metadata lastErrorKey err.message)
          lastErrorStatusKey (statusRepr err.status))
        lastErrorAtKey now }

def invalidShopDomainPat : JStr := jsToLower "Invalid shop domain".data

/-- The scheduler's classification: pause on HTTP 404/401/403 or when the
message matches `/Invalid shop domain/i`. -/
def shouldPauseOnError (err : SyncError) : Bool :=
  err.status == some 404 || err.status == some 401 || err.status == some 403 ||
  hasSub (jsToLower err.message) invalidShopDomainPat

/-- The per-shop `catch` block of the cron sweep: pause-or-ignore. -/
def schedulerHandleFailure (shop : SchedShop) (err : SyncError) (now : JStr) : SchedShop :=
  if shouldPauseOnError err then markShopError shop err now else shop

/-! ### Resource mappers (resourceConfig, shopifyService.js lines 155–237)

A mapped document is an association list of field name to value, mirroring
the JS object literal each `map` function builds (fields in source order,
`undefined` values included).  Each mapper runs in `Except Unit` because the
literal's evaluation can throw (`customer.id` on a `null` record,
`t.trim()` on a non-string tag, `.map` on a non-array `line_items`). -/

/-- A JS object / Mongo document as built by the mappers. -/
abbrev Obj := List (JStr × JSVal)

/-- An optional number as a JS field value: `undefined` when absent. -/
def optNum : Option JNum → JSVal
  | none => .undef
  | some q => .jnum q

/-- Field read on a raw object's field list (`undefined` when absent). -/
def objGet (fields : Obj) (k : JStr) : JSVal := (assocGet fields k).getD (.undef)

/-- `resourceConfig.customers.map`. -/
def mapCustomer (customer : JSVal) (shopId : Nat) : Except Unit Obj := do
  let id ← jsGet customer "id".data
  let email ← jsGet customer "email".data
  let phone ← jsGet customer "phone".data
  let firstName ← jsGet customer "first_name".data
  let lastName ← jsGet customer "last_name".data
  let tags ← normalizeTags (← jsGet customer "tags".data)
  let totalSpent := toNumber (← jsGet customer "total_spent".data)
  let state ← jsGet customer "state".data
  let da ← jsGet customer "default_address".data
  let country ← jsGetOpt da "country_code".data
  let mol ← jsGet customer "marketing_opt_in_level".data
  let createdAt ← jsGet customer "created_at".data
  let updatedAt ← jsGet customer "updated_at".data
  .ok [("shop".data, .jnum (jint shopId)),
       ("shopifyId".data, .jstr (jsToString id)),
       ("email".data, email),
       ("phone".data, phone),
       ("firstName".data, firstName),
       ("lastName".data, lastName),
       ("tags".data, .jarr (tags.map .jstr)),
       ("totalSpent".data, optNum totalSpent),
       ("state".data, state),
       ("country".data, country),
       ("marketingOptInLevel".data, mol),
       ("shopifyCreatedAt".data, createdAt),
       ("shopifyUpdatedAt".data, updatedAt)]

/-- The per-line-item mapper inside `resourceConfig.orders.map`.  Note that
`quantity` is copied verbatim (`quantity: li.quantity`), with no `toNumber`. -/
def mapLineItem (li : JSVal) : Except Unit Obj := do
  let id ← jsGet li "id".data
  let pid ← jsGet li "product_id".data
  let vid ← jsGet li "variant_id".data
  let name ← jsGet li "name".data
  let qty ← jsGet li "quantity".data
  let price ← jsGet li "price".data
  .ok [("shopifyId".data, .jstr (jsToString id)),
       ("productId".data, if jsTruthy pid then .jstr (jsToString pid) else .undef),
       ("variantId".data, if jsTruthy vid then .jstr (jsToString vid) else .undef),
       ("name".data, name),
       ("quantity".data, qty),
       ("price".data, optNum (toNumber price))]

/-- Is the value a string?  (Array tag elements must be, or `.trim()`
throws.) -/
def isStrVal : JSVal → Bool
  | .jstr _ => true
  | _ => false

/-- Tag values `normalizeTags` handles without throwing: anything except an
array with a non-string element. -/
def wfTags : JSVal → Bool
  | .jarr xs => xs.all isStrVal
  | _ => true

/-- Not `null`/`undefined` (property access on these throws). -/
def notNullish : JSVal → Bool
  | .jnull => false
  | .undef => false
  | _ => true

/-- Values of `line_items`/`variants` the mappers handle without throwing:
falsy (replaced by `[]`), or an array of non-nullish elements. -/
def wfElems (v : JSVal) : Bool :=
  !jsTruthy v ||
  (match v with
   | .jarr xs => xs.all notNullish
   | _ => false)

/-- The `order.customer ? {...} : undefined` part of
`resourceConfig.orders.map`. -/
def mapOrderCustomer (cust : JSVal) : Except Unit JSVal :=
  if jsTruthy cust then do
    let cid ← jsGet cust "id".data
    let cemail ← jsGet cust "email".data
    let cfn ← jsGet cust "first_name".data
    let cln ← jsGet cust "last_name".data
    pure (JSVal.jobj [("id".data, .jstr (jsToString cid)),
                      ("email".data, cemail),
                      ("firstName".data, cfn),
                      ("lastName".data, cln)])
  else pure JSVal.undef

/-- The `(order.line_items || []).map(...)` part of
`resourceConfig.orders.map`. -/
def mapOrderLineItems (lisRaw : JSVal) : Except Unit (List JSVal) :=
  match (if jsTruthy lisRaw then lisRaw else .jarr []) with
  | .jarr xs => xs.mapM (fun li => (mapLineItem li).map JSVal.jobj)
  | _ => .error ()

/-- `resourceConfig.orders.map`. -/
def mapOrder (order : JSVal) (shopId : Nat) : Except Unit Obj := do
  let id ← jsGet order "id".data
  let name ← jsGet order "name".data
  let email ← jsGet order "email".data
  let currency ← jsGet order "currency".data
  let totalPrice := toNumber (← jsGet order "total_price".data)
  let subtotalPrice := toNumber (← jsGet order "subtotal_price".data)
  let totalDiscounts := toNumber (← jsGet order "total_discounts".data)
  let financialStatus ← jsGet order "financial_status".data
  let fulfillmentStatus ← jsGet order "fulfillment_status".data
  let processedAt ← jsGet order "processed_at".data
  let tags ← normalizeTags (← jsGet order "tags".data)
  let custVal ← mapOrderCustomer (← jsGet order "customer".data)
  let liDocs ← mapOrderLineItems (← jsGet order "line_items".data)
  let createdAt ← jsGet order "created_at".data
  let updatedAt ← jsGet order "updated_at".data
  .ok [("shop".data, .jnum (jint shopId)),
       ("shopifyId".data, .jstr (jsToString id)),
       ("name".data, name),
       ("email".data, email),
       ("currency".data, currency),
       ("totalPrice".data, optNum totalPrice),
       ("subtotalPrice".data, optNum subtotalPrice),
       ("totalDiscounts".data, optNum totalDiscounts),
       ("financialStatus".data, financialStatus),
       ("fulfillmentStatus".data, fulfillmentStatus),
       ("processedAt".data, processedAt),
       ("tags".data, .jarr (tags.map .jstr)),
       ("customer".data, custVal),
       ("lineItems".data, .jarr liDocs),
       ("shopifyCreatedAt".data, createdAt),
       ("shopifyUpdatedAt".data, updatedAt)]

/-- The per-variant mapper inside `resourceConfig.products.map`.  Note that
`inventoryQuantity` is copied verbatim, with no `toNumber`. -/
def mapVariant (variant : JSVal) : Except Unit Obj := do
  let id ← jsGet variant "id".data
  let title ← jsGet variant "title".data
  let sku ← jsGet variant "sku".data
  let price ← jsGet variant "price".data
  let invQty ← jsGet variant "inventory_quantity".data
  .ok [("shopifyId".data, .jstr (jsToString id)),
       ("title".data, title),
       ("sku".data, sku),
       ("price".data, optNum (toNumber price)),
       ("inventoryQuantity".data, invQty)]

/-- The `(product.variants || []).map(...)` part of
`resourceConfig.products.map`. -/
def mapProductVariants (vsRaw : JSVal) : Except Unit (List JSVal) :=
  match (if jsTruthy vsRaw then vsRaw else .jarr []) with
  | .jarr xs => xs.mapM (fun v => (mapVariant v).map JSVal.jobj)
  | _ => .error ()

/-- `resourceConfig.products.map`. -/
def mapProduct (product : JSVal) (shopId : Nat) : Except Unit Obj := do
  let id ← jsGet product "id".data
  let title ← jsGet product "title".data
  let status ← jsGet product "status".data
  let productType ← jsGet product "product_type".data
  let vendor ← jsGet product "vendor".data
  let tags ← normalizeTags (← jsGet product "tags".data)
  let vDocs ← mapProductVariants (← jsGet product "variants".data)
  let createdAt ← jsGet product "created_at".data
  let updatedAt ← jsGet product "updated_at".data
  .ok [("shop".data, .jnum (jint shopId)),
       ("shopifyId".data, .jstr (jsToString id)),
       ("title".data, title),
       ("status".data, status),
       ("productType".data, productType),
       ("vendor".data, vendor),
       ("tags".data, .jarr (tags.map .jstr)),
       ("variants".data, .jarr vDocs),
       ("shopifyCreatedAt".data, createdAt),
       ("shopifyUpdatedAt".data, updatedAt)]

/-! ### Upsert writer (upsertDocuments, shopifyService.js lines 239–252)

Each bulk operation is
`updateOne { filter: {shop, shopifyId}, update: {$set: doc}, upsert: true }`.
Mongoose strips `undefined` paths from the `$set` during casting, modelled
by `stripUndef`; `$set` then overwrites exactly the fields present in the
(stripped) document, leaving other stored fields in place.  An upsert miss
inserts the filter's fields plus the `$set` fields, i.e. the stripped
document itself. -/

def shopKey : JStr := "shop".data
def shopifyIdKey : JStr := "shopifyId".data

/-- Drop `undefined`-valued fields (Mongoose/BSON casting of the update). -/
def stripUndef (doc : Obj) : Obj := doc.filter (fun kv => kv.2 ≠ .undef)

/-- Does stored record `r` match the op's filter
`{ shop: doc.shop, shopifyId: doc.shopifyId }`? -/
def filterMatches (r doc : Obj) : Bool :=
  decide (assocGet r shopKey = assocGet doc shopKey ∧
          assocGet r shopifyIdKey = assocGet doc shopifyIdKey)

/-- Do two documents carry the same (tenant, externalId) upsert key? -/
def sameKeyDoc (a b : Obj) : Bool :=
  decide (assocGet a shopKey = assocGet b shopKey ∧
          assocGet a shopifyIdKey = assocGet b shopifyIdKey)

/-- Mongo `$set`: write each field of `sdoc` into the stored record,
replacing in place or appending. -/
def applySet (stored : Obj) (sdoc : Obj) : Obj :=
  sdoc.foldl (fun o kv => assocSet o kv.1 kv.2) stored

/-- What one `updateOne` did, for the returned counts. -/
inductive UpdOutcome where
  | upserted
  | matchedSame
  | matchedMod
  deriving DecidableEq

/-- One `updateOne ... upsert: true` against the collection: update the
first matching record, or insert at the end. -/
def applyUpdateOne : List Obj → Obj → List Obj × UpdOutcome
  | [], doc => ([stripUndef doc], .upserted)
  | r :: rs, doc =>
    if filterMatches r doc then
      let updated := applySet r (stripUndef doc)
      (updated :: rs, if updated = r then .matchedSame else .matchedMod)
    else
      let res := applyUpdateOne rs doc
      (r :: res.1, res.2)

/-- The counts Mongo reports for a bulk write. -/
structure BulkRes where
  upsertedCount : Nat
  modifiedCount : Nat
  matchedCount : Nat
  deriving DecidableEq

def bulkStep (acc : List Obj × BulkRes) (doc : Obj) : List Obj × BulkRes :=
  let r := applyUpdateOne acc.1 doc
  match r.2 with
  | .upserted => (r.1, { acc.2 with upsertedCount := acc.2.upsertedCount + 1 })
  | .matchedSame => (r.1, { acc.2 with matchedCount := acc.2.matchedCount + 1 })
  | .matchedMod =>
    (r.1, { acc.2 with matchedCount := acc.2.matchedCount + 1,
                       modifiedCount := acc.2.modifiedCount + 1 })

def bulkWrite (coll : List Obj) (docs : List Obj) : List Obj × BulkRes :=
  docs.foldl bulkStep (coll, ⟨0, 0, 0⟩)

/-- `upsertDocuments`: empty batch is a zero no-op, otherwise bulk-write and
return `upsertedCount + modifiedCount + matchedCount`. -/
def upsertDocuments (coll : List Obj) (docs : List Obj) : List Obj × Nat :=
  if docs.isEmpty then (coll, 0)
  else
    let r := bulkWrite coll docs
    (r.1, r.2.upsertedCount + r.2.modifiedCount + r.2.matchedCount)

/-! ### Sync orchestrator (syncShopResources, shopifyService.js lines 254–269)

`fetchPaginatedResource` is abstracted into an environment
`env : ResourceKind → List JSVal` giving the records the paginator would
return for each kind (path, dataKey and params are determined by the kind).
The summary is a JS object keyed by the requested kind strings. -/

inductive ResourceKind where
  | customers
  | orders
  | products
  deriving DecidableEq

def resourceMapFn : ResourceKind → JSVal → Nat → Except Unit Obj
  | .customers => mapCustomer
  | .orders => mapOrder
  | .products => mapProduct

/-- `resourceConfig[resource]` membership. -/
def configLookup (r : JStr) : Option ResourceKind :=
  if r = "customers".data then some .customers
  else if r = "orders".data then some .orders
  else if r = "products".data then some .products
  else none

/-- The three typed collections. -/
structure Collections where
  customers : List Obj
  orders : List Obj
  products : List Obj
  deriving DecidableEq

def getColl (st : Collections) : ResourceKind → List Obj
  | .customers => st.customers
  | .orders => st.orders
  | .products => st.products

def setColl (st : Collections) : ResourceKind → List Obj → Collections
  | .customers, c => { st with customers := c }
  | .orders, c => { st with orders := c }
  | .products, c => { st with products := c }

/-- One entry of the sync summary. -/
inductive SummaryEntry where
  | errorUnsupported
  | counts (pulled saved : Nat)
  deriving DecidableEq

/-- The `for (const resource of resources)` loop of `syncShopResources`.
A mapper throw propagates out as the function's own throw; an unsupported
kind records its error entry and continues. -/
def syncGo (env : ResourceKind → List JSVal) (shopId : Nat) :
    List JStr → Collections → List (JStr × SummaryEntry) →
    Except Unit (Collections × List (JStr × SummaryEntry))
  | [], st, summary => .ok (st, summary)
  | r :: rest, st, summary =>
    match configLookup r with
    | none => syncGo env shopId rest st (assocSet summary r .errorUnsupported)
    | some k =>
      match (env k).mapM (fun item => resourceMapFn k item shopId) with
      | .error e => .error e
      | .ok docs =>
        syncGo env shopId rest
          (setColl st k (upsertDocuments (getColl st k) docs).1)
          (assocSet summary r
            (.counts (env k).length (upsertDocuments (getColl st k) docs).2))

/-- `syncShopResources` for one tenant over a requested kind list. -/
def syncShopResources (env : ResourceKind → List JSVal) (shopId : Nat)
    (st : Collections) (resources : List JStr) :
    Except Unit (Collections × List (JStr × SummaryEntry)) :=
  syncGo env shopId resources st []

/-! ### Webhook handler (handleWebhook, shopifyService.js lines 271–304) and
the events POST route -/

/-- A persisted `Event` document (topic, payload, owning shop). -/
structure EventRec where
  shop : Nat
  topic : JStr
  payload : JSVal
  deriving DecidableEq

/-- Event audit trail plus the three typed collections. -/
structure AppState where
  events : List EventRec
  customers : List Obj
  orders : List Obj
  products : List Obj
  deriving DecidableEq

inductive WebhookResult where
  | customer
  | order
  | product
  | eventOnly
  | unhandled
  deriving DecidableEq

/-- Model of `String.prototype.startsWith`. -/
def startsWith (s pat : JStr) : Bool := isPre pat s

/-- The cart/checkout/abandonment condition of `handleWebhook` (lines
294–299). -/
def cartishTopic (nt : JStr) : Bool :=
  startsWith nt "carts/".data || startsWith nt "checkouts/".data ||
  hasSub nt "abandon".data || hasSub nt "cart".data

/-- `handleWebhook`: persist the event, then classify by topic.  The state
component is returned even on a mapper throw, because `Event.create` has
already run by then. -/
def handleWebhook (topic : JStr) (payload : JSVal) (shopId : Nat) (st : AppState) :
    AppState × Except Unit WebhookResult :=
  let nt := jsToLower topic
  let st1 := { st with events := st.events ++ [⟨shopId, nt, payload⟩] }
  if startsWith nt "customers/".data then
    match mapCustomer payload shopId with
    | .error e => (st1, .error e)
    | .ok doc =>
      ({ st1 with customers := (upsertDocuments st1.customers [doc]).1 }, .ok .customer)
  else if startsWith nt "orders/".data then
    match mapOrder payload shopId with
    | .error e => (st1, .error e)
    | .ok doc =>
      ({ st1 with orders := (upsertDocuments st1.orders [doc]).1 }, .ok .order)
  else if startsWith nt "products/".data then
    match mapProduct payload shopId with
    | .error e => (st1, .error e)
    | .ok doc =>
      ({ st1 with products := (upsertDocuments st1.products [doc]).1 }, .ok .product)
  else if cartishTopic nt then
    (st1, .ok .eventOnly)
  else
    (st1, .ok .unhandled)

/-- The event-creating tail of `POST /api/events/:shopId`: after the
ObjectId / shop-existence / ownership guards (which do not touch the topic),
a falsy topic is rejected with a 400, otherwise the Event is stored with the
lowercased topic. -/
def eventsPostCreate (topic : JStr) (payload : JSVal) (shopId : Nat) : Option EventRec :=
  if topic = [] then none
  else some ⟨shopId, jsToLower topic, payload⟩

/-! ### Paginator (fetchPaginatedResource, shopifyService.js lines 128–153)

The HTTP collaborator is a function from the request's `page_info` query
parameter (absent on the first call, since a falsy `pageInfo` adds no
parameter) to a response carrying a record array and an optional `link`
header.  The `do ... while (pageInfo)` loop is modelled with a fuel
parameter; under the termination hypotheses of the theorems below the fuel
is never exhausted. -/

/-- One page response: the array under the data key, and the `link` header. -/
structure PageResp (α : Type) where
  data : List α
  link : Option JStr

/-- JS truthiness of the `pageInfo` string (`while (pageInfo)`): `null` and
the empty string stop the loop. -/
def truthyCursor : Option JStr → Bool
  | none => false
  | some s => !s.isEmpty

/-- The `do`/`while` body of `fetchPaginatedResource`, counting HTTP calls.
Returns `none` only on fuel exhaustion. -/
def fetchLoop {α : Type} (server : Option JStr → PageResp α) :
    Nat → Option JStr → List α → Nat → Option (List α × Nat)
  | 0, _, _, _ => none
  | fuel + 1, pageInfo, acc, calls =>
    let resp := server pageInfo
    let acc2 := acc ++ resp.data
    let next := parsePageInfo resp.link
    if truthyCursor next then fetchLoop server fuel next acc2 (calls + 1)
    else some (acc2, calls + 1)

/-- `fetchPaginatedResource`: start at page one (no cursor), with an empty
accumulator. -/
def fetchPaginatedResource {α : Type} (server : Option JStr → PageResp α) (fuel : Nat) :
    Option (List α × Nat) :=
  fetchLoop server fuel none [] 0

/-- The cursor sent on the `i`-th request (0-based): none for the first,
then whatever `parsePageInfo` extracted from the previous response. -/
def cursorSeq {α : Type} (server : Option JStr → PageResp α) : Nat → Option JStr
  | 0 => none
  | i + 1 => parsePageInfo (server (cursorSeq server i)).link

/-! ### Concrete fixtures used by witnesses and counterexamples -/

/-- `link` header pointing at the second page's cursor. -/
def page2Link : JStr :=
  "<https://test-shop.myshopify.com/admin/api/2024-10/orders.json?limit=250&page_info=cursorB>; rel=\"next\"".data

/-- `link` header pointing at the third page's cursor. -/
def page3Link : JStr :=
  "<https://test-shop.myshopify.com/admin/api/2024-10/orders.json?limit=250&page_info=cursorC>; rel=\"next\"".data

/-- `link` header of the last page: only a `rel="previous"` entry. -/
def lastPageLink : JStr :=
  "<https://test-shop.myshopify.com/admin/api/2024-10/orders.json?limit=250&page_info=cursorB>; rel=\"previous\"".data

/-- A 3-page server fixture serving 250 + 250 + 10 records. -/
def server3 (c : Option JStr) : PageResp Nat :=
  if c = some "cursorB".data then ⟨List.range' 250 250, some page3Link⟩
  else if c = some "cursorC".data then ⟨List.range' 500 10, some lastPageLink⟩
  else ⟨List.range 250, some page2Link⟩

/-- C2 fixture: raw customer with `total_spent: "5"`. -/
def c2raw1 : JSVal := .jobj [("id".data, .jnum (jint 1)), ("total_spent".data, .jstr "5".data)]

/-- C2 fixture: the same customer observed later with `total_spent: ""`. -/
def c2raw2 : JSVal := .jobj [("id".data, .jnum (jint 1)), ("total_spent".data, .jstr "".data)]

/-- The mapped document of `c2raw1`. -/
def c2doc1 : Obj := (mapCustomer c2raw1 1).toOption.getD []

/-- The mapped document of `c2raw2` (its `totalSpent` is `undefined`). -/
def c2doc2 : Obj := (mapCustomer c2raw2 1).toOption.getD []

/-- C4 fixture: a raw order line item whose `quantity` is the empty string. -/
def c4rawLineItem : Obj :=
  [("id".data, .jnum (jint 7)), ("quantity".data, .jstr "".data), ("price".data, .jstr "10.00".data)]

/-- C4 fixture: a raw order holding that line item. -/
def c4rawOrder : JSVal :=
  .jobj [("id".data, .jnum (jint 1001)), ("line_items".data, .jarr [.jobj c4rawLineItem])]

/-- The mapped line-item document of the C4 fixture. -/
def c4liDoc : Obj := (mapLineItem (.jobj c4rawLineItem)).toOption.getD []

/-- The mapped order document of the C4 fixture. -/
def c4orderDoc : Obj := (mapOrder c4rawOrder 1).toOption.getD []

/-- C6 fixture: a minimal raw order. -/
def c6rawOrder : JSVal := .jobj [("id".data, .jnum (jint 5))]

/-- C6 fixture: an environment whose paginator returns one order and no
customers/products. -/
def c6env : ResourceKind → List JSVal
  | .orders => [c6rawOrder]
  | _ => []

/-- The mapped document of the C6 fixture order. -/
def c6orderDoc : Obj := (mapOrder c6rawOrder 1).toOption.getD []

/-- C10 fixture: the C2 customer observed again with `total_spent: "9"`. -/
def c10raw : JSVal := .jobj [("id".data, .jnum (jint 1)), ("total_spent".data, .jstr "9".data)]

/-- The mapped document of `c10raw`. -/
def c10doc : Obj := (mapCustomer c10raw 1).toOption.getD []

/-! ### Association-list lemmas -/

theorem assocGet_assocSet_self {α β : Type} [DecidableEq α]
    (l : List (α × β)) (k : α) (v : β) : assocGet (assocSet l k v) k = some v := by
  induction l with
  | nil => simp [assocSet, assocGet, List.find?]
  | cons kv rest ih =>
    by_cases h : kv.1 = k
    · simp [assocSet, h, assocGet, List.find?]
    · simp only [assocSet, if_neg h]
      simpa [assocGet, List.find?, h] using ih

theorem assocGet_assocSet_ne {α β : Type} [DecidableEq α]
    (l : List (α × β)) (k k' : α) (v : β) (hne : k ≠ k') :
    assocGet (assocSet l k v) k' = assocGet l k' := by
  induction l with
  | nil => simp [assocSet, assocGet, List.find?, hne]
  | cons kv rest ih =>
    by_cases h : kv.1 = k
    · simp [assocSet, h, assocGet, List.find?, hne, h ▸ hne]
    · simp only [assocSet, if_neg h]
      by_cases h2 : kv.1 = k'
      · simp [assocGet, List.find?, h2]
      · simpa [assocGet, List.find?, h2] using ih

/-! ### Character-level lemmas -/

theorem char_toNat_inj {a b : Char} (h : a.toNat = b.toNat) : a = b := by
  have ha := Char.ofNat_toNat a
  have hb := Char.ofNat_toNat b
  rw [← ha, ← hb, h]

theorem char_eq_iff_toNat (a b : Char) : a = b ↔ a.toNat = b.toNat :=
  ⟨fun h => h ▸ rfl, char_toNat_inj⟩

theorem toNat_ofNat_valid (n : Nat) (h : n < 55296) : (Char.ofNat n).toNat = n := by
  rw [Char.ofNat, dif_pos (Or.inl h : n.isValidChar)]
  rfl

theorem lowerChar_toNat (c : Char) :
    (lowerChar c).toNat = if 65 ≤ c.toNat ∧ c.toNat ≤ 90 then c.toNat + 32 else c.toNat := by
  unfold lowerChar
  split
  · rename_i h
    have h2 : c.toNat ≤ 90 := h.2
    rw [if_pos (⟨h.1, h.2⟩ : 65 ≤ c.toNat ∧ c.toNat ≤ 90)]
    exact toNat_ofNat_valid _ (by omega)
  · rename_i h
    rw [if_neg (fun hh : 65 ≤ c.toNat ∧ c.toNat ≤ 90 => h ⟨hh.1, hh.2⟩)]

theorem lowerChar_not_upper (c : Char) :
    ¬(65 ≤ (lowerChar c).toNat ∧ (lowerChar c).toNat ≤ 90) := by
  rw [lowerChar_toNat]
  split <;> omega

theorem lowerChar_idem (c : Char) : lowerChar (lowerChar c) = lowerChar c := by
  apply char_toNat_inj
  rw [lowerChar_toNat (lowerChar c), if_neg (lowerChar_not_upper c)]

theorem jsToLower_idem (s : JStr) : jsToLower (jsToLower s) = jsToLower s := by
  unfold jsToLower
  rw [List.map_map]
  exact List.map_congr_left (fun c _ => lowerChar_idem c)

theorem jsToLower_no_upper (s : JStr) :
    ∀ c ∈ jsToLower s, ¬(65 ≤ c.toNat ∧ c.toNat ≤ 90) := by
  intro c hc
  rw [jsToLower, List.mem_map] at hc
  obtain ⟨a, _, rfl⟩ := hc
  exact lowerChar_not_upper a

theorem forbidden_iff (c : Char) : isForbiddenHostChar c = true ↔
    (c.toNat < 33 ∨ c.toNat = 35 ∨ c.toNat = 47 ∨ c.toNat = 58 ∨ c.toNat = 60 ∨
     c.toNat = 62 ∨ c.toNat = 63 ∨ c.toNat = 64 ∨ c.toNat = 91 ∨ c.toNat = 92 ∨
     c.toNat = 93 ∨ c.toNat = 94 ∨ c.toNat = 124) := by
  unfold isForbiddenHostChar
  simp only [Bool.or_eq_true, beq_iff_eq, decide_eq_true_eq, char_eq_iff_toNat,
    show ('#').toNat = 35 from rfl, show ('/').toNat = 47 from rfl,
    show (':').toNat = 58 from rfl, show ('<').toNat = 60 from rfl,
    show ('>').toNat = 62 from rfl, show ('?').toNat = 63 from rfl,
    show ('@').toNat = 64 from rfl, show ('[').toNat = 91 from rfl,
    show ('\\').toNat = 92 from rfl, show (']').toNat = 93 from rfl,
    show ('^').toNat = 94 from rfl, show ('|').toNat = 124 from rfl]
  omega

theorem lowerChar_not_forbidden {c : Char} (h : isForbiddenHostChar c = false) :
    isForbiddenHostChar (lowerChar c) = false := by
  rw [← Bool.not_eq_true] at h ⊢
  rw [forbidden_iff] at h ⊢
  rw [lowerChar_toNat]
  split <;> omega

theorem jsSpace_iff (c : Char) : jsSpace c = true ↔
    (c.toNat = 32 ∨ c.toNat = 9 ∨ c.toNat = 10 ∨ c.toNat = 13 ∨
     c.toNat = 11 ∨ c.toNat = 12) := by
  unfold jsSpace
  simp only [Bool.or_eq_true, decide_eq_true_eq, char_eq_iff_toNat,
    show (' ').toNat = 32 from rfl, show ('\t').toNat = 9 from rfl,
    show ('\n').toNat = 10 from rfl, show ('\r').toNat = 13 from rfl,
    toNat_ofNat_valid 11 (by omega), toNat_ofNat_valid 12 (by omega)]
  omega

theorem not_space_of_not_forbidden {c : Char} (h : isForbiddenHostChar c = false) :
    jsSpace c = false := by
  rw [← Bool.not_eq_true] at h ⊢
  rw [forbidden_iff] at h
  rw [jsSpace_iff]
  omega

/-! ### Trim / substring lemmas -/

theorem jsTrim_eq_self {s : JStr} (h : ∀ c ∈ s, jsSpace c = false) : jsTrim s = s := by
  unfold jsTrim
  have h1 : s.dropWhile jsSpace = s := by
    rw [List.dropWhile_eq_self_iff]
    intro hl
    rw [h _ (List.get_mem s 0 hl)]
    simp
  rw [h1]
  have h2 : s.reverse.dropWhile jsSpace = s.reverse := by
    rw [List.dropWhile_eq_self_iff]
    intro hl
    have : s.reverse.get ⟨0, hl⟩ ∈ s.reverse := List.get_mem _ 0 hl
    rw [h _ (List.mem_reverse.mp this)]
    simp
  rw [h2, List.reverse_reverse]

theorem isPre_spec (p s : JStr) : isPre p s = true ↔ p <+: s := by
  induction p generalizing s with
  | nil => simp [isPre]
  | cons c cs ih =>
    cases s with
    | nil => simp [isPre]
    | cons d ds => simp [isPre, Bool.and_eq_true, beq_iff_eq, ih, List.cons_prefix_cons]

theorem hasSub_mem {s pat : JStr} (h : hasSub s pat = true) : ∀ c ∈ pat, c ∈ s := by
  induction s with
  | nil =>
    unfold hasSub at h
    rw [List.isEmpty_iff] at h
    subst h
    intro c hc
    cases hc
  | cons a t ih =>
    unfold hasSub at h
    rw [Bool.or_eq_true] at h
    rcases h with hp | ht
    · intro c hc
      exact ((isPre_spec _ _).mp hp).sublist.subset hc
    · intro c hc
      exact List.mem_cons_of_mem a (ih ht c hc)

theorem hasSub_eq_false_of_not_mem {s pat : JStr} (c : Char) (hc : c ∈ pat) (h : c ∉ s) :
    hasSub s pat = false := by
  by_contra hcon
  rw [Bool.not_eq_false] at hcon
  exact h (hasSub_mem hcon c hc)

/-! ### URL-model lemmas -/

theorem authDelim_eq_false {c : Char} (h : isForbiddenHostChar c = false) :
    authDelim c = false := by
  rw [← Bool.not_eq_true] at h ⊢
  rw [forbidden_iff] at h
  unfold authDelim
  simp only [Bool.or_eq_true, beq_iff_eq, char_eq_iff_toNat,
    show ('/').toNat = 47 from rfl, show ('?').toNat = 63 from rfl,
    show ('#').toNat = 35 from rfl]
  omega

theorem ne_at_of_not_forbidden {c : Char} (h : isForbiddenHostChar c = false) : c ≠ '@' := by
  intro heq
  subst heq
  simp [show isForbiddenHostChar '@' = true from rfl] at h

theorem bne_colon_of_not_forbidden {c : Char} (h : isForbiddenHostChar c = false) :
    (c != ':') = true := by
  rw [bne_iff_ne]
  intro heq
  subst heq
  simp [show isForbiddenHostChar ':' = true from rfl] at h

/-- On a plain host string (non-empty, no forbidden code points) the URL
component extractors are the identity / empty. -/
theorem urlParts_clean {hs : JStr} (hok : ∀ c ∈ hs, isForbiddenHostChar c = false) :
    urlAuthority hs = hs ∧ urlHost hs = hs ∧ urlPort hs = [] ∧ urlQuery hs = [] := by
  have hauth : urlAuthority hs = hs := by
    unfold urlAuthority
    rw [List.takeWhile_eq_self_iff]
    intro c hc
    rw [authDelim_eq_false (hok c hc)]
    rfl
  have hafter : afterLastAt hs = hs := by
    unfold afterLastAt
    have hrev : hs.reverse.takeWhile (fun c => c ≠ '@') = hs.reverse := by
      rw [List.takeWhile_eq_self_iff]
      intro c hc
      simp [ne_at_of_not_forbidden (hok c (List.mem_reverse.mp hc))]
    rw [hrev, List.reverse_reverse]
  have hhost : urlHost hs = hs := by
    unfold urlHost
    rw [hauth, hafter, List.takeWhile_eq_self_iff]
    intro c hc
    exact bne_colon_of_not_forbidden (hok c hc)
  have hport : urlPort hs = [] := by
    unfold urlPort
    rw [hauth, hafter]
    have hdrop : hs.dropWhile (fun c => c != ':') = [] := by
      rw [List.dropWhile_eq_nil_iff]
      intro c hc
      exact bne_colon_of_not_forbidden (hok c hc)
    rw [hdrop]
    rfl
  have hquery : urlQuery hs = [] := by
    unfold urlQuery
    rw [hauth, List.drop_length]
    rfl
  exact ⟨hauth, hhost, hport, hquery⟩

/-- Parsing `https://` + a plain host gives back exactly that host. -/
theorem parseURL_https_clean {hs : JStr} (hne : hs ≠ [])
    (hok : ∀ c ∈ hs, isForbiddenHostChar c = false) :
    parseURL ("https://".data ++ hs) = some ⟨"https".data, hs, [], []⟩ := by
  obtain ⟨hauth, hhost, hport, hquery⟩ := urlParts_clean hok
  have hreduce : parseURL ("https://".data ++ hs) =
      (if urlHost hs = [] then none
       else if (urlHost hs).any isForbiddenHostChar then none
       else if ¬ (urlPort hs).all Char.isDigit then none
       else some ⟨"https".data, urlHost hs, urlPort hs, urlQuery hs⟩) := rfl
  rw [hreduce, hhost, hport, hquery, if_neg hne]
  have hany : hs.any isForbiddenHostChar = false := by
    rw [List.any_eq_false]
    intro c hc
    rw [hok c hc]
    simp
  rw [hany]
  simp

/-- The host of any successfully parsed URL is non-empty and free of
forbidden code points. -/
theorem parseURL_host_ok {s : JStr} {u : JsURL} (h : parseURL s = some u) :
    u.host ≠ [] ∧ ∀ c ∈ u.host, isForbiddenHostChar c = false := by
  unfold parseURL at h
  split at h
  · cases h
  · split at h
    · cases h
    · split at h
      · cases h
      · split at h
        · cases h
        · split at h
          · cases h
          · split at h
            · cases h
            · split at h
              · cases h
              · rename_i hne hany hport
                cases h
                refine ⟨hne, fun c hc => ?_⟩
                rw [← Bool.not_eq_true]
                intro hcf
                exact hany (List.any_eq_true.mpr ⟨c, hc, hcf⟩)

/-! ### Domain-normalizer lemmas -/

theorem domainParse_host_ok {t : JStr} {u : JsURL} (h : domainParse t = some u) :
    u.host ≠ [] ∧ ∀ c ∈ u.host, isForbiddenHostChar c = false := by
  unfold domainParse at h
  split at h <;> exact parseURL_host_ok h

theorem suffix_chars_ok : ∀ c ∈ shopifySuffix, isForbiddenHostChar c = false := by decide

theorem suffixedHost_chars_ok {u : JsURL}
    (hok : ∀ c ∈ u.host, isForbiddenHostChar c = false) :
    ∀ c ∈ suffixedHost u, isForbiddenHostChar c = false := by
  have hlow : ∀ c ∈ jsToLower u.host, isForbiddenHostChar c = false := by
    intro c hc
    rw [jsToLower, List.mem_map] at hc
    obtain ⟨a, ha, rfl⟩ := hc
    exact lowerChar_not_forbidden (hok a ha)
  unfold suffixedHost
  split
  · intro c hc
    rcases List.mem_append.mp hc with hc | hc
    · exact hlow c hc
    · exact suffix_chars_ok c hc
  · exact hlow

theorem suffixedHost_lower_fixed (u : JsURL) :
    jsToLower (suffixedHost u) = suffixedHost u := by
  unfold suffixedHost
  split
  · rw [jsToLower, List.map_append, ← jsToLower, ← jsToLower, jsToLower_idem,
      show jsToLower shopifySuffix = shopifySuffix by decide]
  · exact jsToLower_idem u.host

/-- A lowercase-stable dotted host is fixed by `suffixedHost`. -/
theorem suffixedHost_plain {h2 : JStr} (hlow : jsToLower h2 = h2)
    (hdot : h2.contains '.' = true) :
    suffixedHost ⟨"https".data, h2, [], []⟩ = h2 := by
  unfold suffixedHost
  dsimp only
  rw [hlow, if_neg]
  intro hand
  exact hand.2 hdot

/-- Unfolding equation for `normalizeShopDomain` on a successful parse. -/
theorem normalizeShopDomain_eq_some {raw : JStr} {u : JsURL} (hraw : raw ≠ [])
    (hu : domainParse (jsTrim raw) = some u) :
    normalizeShopDomain raw =
      if shopifySuffix.isSuffixOf (suffixedHost u) = true then some (suffixedHost u)
      else none := by
  unfold normalizeShopDomain
  rw [if_neg hraw, hu]

/-- C7 core: any accepted result ends in the platform suffix and
re-normalizing it is the identity. -/
theorem normalizeShopDomain_accepted {raw d : JStr}
    (h : normalizeShopDomain raw = some d) :
    shopifySuffix.isSuffixOf d = true ∧ normalizeShopDomain d = some d := by
  by_cases hraw : raw = []
  · rw [normalizeShopDomain, if_pos hraw] at h
    cases h
  · rcases hu : domainParse (jsTrim raw) with _ | u
    · rw [normalizeShopDomain, if_neg hraw, hu] at h
      cases h
    · rw [normalizeShopDomain_eq_some hraw hu] at h
      by_cases hsuf : shopifySuffix.isSuffixOf (suffixedHost u) = true
      · rw [if_pos hsuf] at h
        cases h
        -- d = suffixedHost u
        obtain ⟨_, hok⟩ := domainParse_host_ok hu
        have hch : ∀ c ∈ suffixedHost u, isForbiddenHostChar c = false :=
          suffixedHost_chars_ok hok
        obtain ⟨pre, hpre⟩ := List.isSuffixOf_iff_suffix.mp hsuf
        have hne : suffixedHost u ≠ [] := by
          rw [← hpre]
          simp [shopifySuffix]
        refine ⟨hsuf, ?_⟩
        have hdot : (suffixedHost u).contains '.' = true := by
          rw [List.contains_eq_any_beq, List.any_eq_true]
          refine ⟨'.', ?_, by simp⟩
          rw [← hpre]
          exact List.mem_append_right pre (by decide)
        have htrim : jsTrim (suffixedHost u) = suffixedHost u :=
          jsTrim_eq_self (fun c hc => not_space_of_not_forbidden (hch c hc))
        have hnosep : hasSub (suffixedHost u) schemeSep = false := by
          apply hasSub_eq_false_of_not_mem ':' (by decide)
          intro hmem
          have := hch ':' hmem
          simp [show isForbiddenHostChar ':' = true from rfl] at this
        have hparse : domainParse (suffixedHost u) =
            some ⟨"https".data, suffixedHost u, [], []⟩ := by
          unfold domainParse
          rw [hnosep]
          simp only [Bool.false_eq_true, if_false]
          exact parseURL_https_clean hne hch
        have hparse2 : domainParse (jsTrim (suffixedHost u)) =
            some ⟨"https".data, suffixedHost u, [], []⟩ := by
          rw [htrim]
          exact hparse
        rw [normalizeShopDomain_eq_some hne hparse2]
        rw [suffixedHost_plain (suffixedHost_lower_fixed u) hdot, if_pos hsuf]
      · rw [if_neg hsuf] at h
        cases h

/-- C8 core: a parse failure, or a host that (after lowercasing and
bare-subdomain suffixing) does not end in the platform suffix, yields the
failure signal `none`. -/
theorem normalizeShopDomain_rejects (raw : JStr) :
    (domainParse (jsTrim raw) = none → normalizeShopDomain raw = none) ∧
    (∀ u, domainParse (jsTrim raw) = some u →
      shopifySuffix.isSuffixOf (suffixedHost u) = false →
      normalizeShopDomain raw = none) := by
  constructor
  · intro hp
    unfold normalizeShopDomain
    split
    · rfl
    · rw [hp]
  · intro u hp hsuf
    unfold normalizeShopDomain
    split
    · rfl
    · rw [hp]
      simp [hsuf]

/-- Witness for C7 at the concrete input `"My-Store"`: it normalizes to
`my-store.myshopify.com`, which ends in the suffix and re-normalizes to
itself. -/
theorem normalizeShopDomain_accepted_witness :
    normalizeShopDomain ("My-Store".data) = some ("my-store.myshopify.com".data) ∧
    shopifySuffix.isSuffixOf ("my-store.myshopify.com".data) = true ∧
    normalizeShopDomain ("my-store.myshopify.com".data) =
      some ("my-store.myshopify.com".data) := by
  have h := @normalizeShopDomain_accepted ("My-Store".data)
    ("my-store.myshopify.com".data) (by decide)
  exact ⟨by decide, h.1, h.2⟩

/-- Witness for C8 at the concrete input `"example.com"` (a custom
storefront domain): it parses, fails the suffix test, and normalizes to
`none`. -/
theorem normalizeShopDomain_rejects_witness :
    domainParse (jsTrim "example.com".data) =
      some (JsURL.mk "https".data "example.com".data [] []) ∧
    shopifySuffix.isSuffixOf (suffixedHost (JsURL.mk "https".data "example.com".data [] [])) =
      false ∧
    normalizeShopDomain ("example.com".data) = none := by
  refine ⟨by decide, by decide, ?_⟩
  exact (normalizeShopDomain_rejects ("example.com".data)).2
    (JsURL.mk "https".data "example.com".data [] []) (by decide) (by decide)

/-! ### Scheduler failure classification (C3) -/

theorem assocSet_ne_nil {α β : Type} [DecidableEq α] (l : List (α × β)) (k : α) (v : β) :
    assocSet l k v ≠ [] := by
  cases l with
  | nil => simp [assocSet]
  | cons kv rest =>
    unfold assocSet
    split <;> simp

/-- C3: on a Scheduler tick, a failing active tenant is paused exactly when
the error carries HTTP status 401/403/404 or a domain-invalidity message
(`/Invalid shop domain/i`); pausing persists the three diagnostic metadata
entries (message, status, timestamp), so the snapshot is non-empty; every
other failure leaves the tenant record untouched, hence still active. -/
theorem schedulerHandleFailure_spec (shop : SchedShop) (err : SyncError) (now : JStr)
    (hactive : shop.status = .active) :
    ((err.status = some 401 ∨ err.status = some 403 ∨ err.status = some 404 ∨
        hasSub (jsToLower err.message) invalidShopDomainPat = true) →
      (schedulerHandleFailure shop err now).status = .paused ∧
      (schedulerHandleFailure shop err now).metadata ≠ [] ∧
      assocGet (schedulerHandleFailure shop err now).metadata lastErrorKey =
        some err.message ∧
      assocGet (schedulerHandleFailure shop err now).metadata lastErrorStatusKey =
        some (statusRepr err.status) ∧
      assocGet (schedulerHandleFailure shop err now).metadata lastErrorAtKey =
        some now) ∧
    (¬(err.status = some 401 ∨ err.status = some 403 ∨ err.status = some 404 ∨
        hasSub (jsToLower err.message) invalidShopDomainPat = true) →
      schedulerHandleFailure shop err now = shop ∧
      (schedulerHandleFailure shop err now).status = .active) := by
  have hiff : shouldPauseOnError err = true ↔
      (err.status = some 401 ∨ err.status = some 403 ∨ err.status = some 404 ∨
        hasSub (jsToLower err.message) invalidShopDomainPat = true) := by
    unfold shouldPauseOnError
    simp only [Bool.or_eq_true, beq_iff_eq]
    tauto
  constructor
  · intro hcond
    have hp : shouldPauseOnError err = true := hiff.mpr hcond
    unfold schedulerHandleFailure
    rw [if_pos hp]
    unfold markShopError
    refine ⟨rfl, assocSet_ne_nil _ _ _, ?_, ?_, ?_⟩
    · rw [assocGet_assocSet_ne _ _ _ _ (by decide),
        assocGet_assocSet_ne _ _ _ _ (by decide), assocGet_assocSet_self]
    · rw [assocGet_assocSet_ne _ _ _ _ (by decide), assocGet_assocSet_self]
    · rw [assocGet_assocSet_self]
  · intro hcond
    have hp : shouldPauseOnError err = false := by
      rw [← Bool.not_eq_true]
      exact fun hx => hcond (hiff.mp hx)
    unfold schedulerHandleFailure
    rw [hp]
    exact ⟨by simp, by simp [hactive]⟩

/-- Witness for C3: a 401 failure pauses the shop and records metadata; a
network-timeout failure (no status) leaves it active. -/
theorem schedulerHandleFailure_spec_witness :
    (schedulerHandleFailure ⟨.active, []⟩ ⟨some 401, "Unauthorized".data⟩ "T0".data).status =
      .paused ∧
    (schedulerHandleFailure ⟨.active, []⟩ ⟨some 401, "Unauthorized".data⟩ "T0".data).metadata ≠
      [] ∧
    (schedulerHandleFailure ⟨.active, []⟩
        ⟨none, "timeout of 15000ms exceeded".data⟩ "T0".data).status = .active := by
  have h1 := schedulerHandleFailure_spec ⟨.active, []⟩ ⟨some 401, "Unauthorized".data⟩
    "T0".data rfl
  have h2 := schedulerHandleFailure_spec ⟨.active, []⟩
    ⟨none, "timeout of 15000ms exceeded".data⟩ "T0".data rfl
  exact ⟨(h1.1 (Or.inl rfl)).1, (h1.1 (Or.inl rfl)).2.1, (h2.2 (by decide)).2⟩

/-! ### Webhook handler theorems (C5, C9) -/

/-- C9: every Event-creating operation stores a fully lowercased topic.
`handleWebhook` appends exactly one event whose topic is the lowercased
inbound topic (containing no ASCII uppercase letter), its behaviour depends
only on the lowercased topic (case-insensitive classification), and the
custom-event POST route stores a lowercased topic as well. -/
theorem eventTopics_lowercase (topic : JStr) (payload : JSVal) (shopId : Nat)
    (st : AppState) :
    (handleWebhook topic payload shopId st).1.events =
      st.events ++ [⟨shopId, jsToLower topic, payload⟩] ∧
    (∀ c ∈ jsToLower topic, ¬(65 ≤ c.toNat ∧ c.toNat ≤ 90)) ∧
    (∀ topic2, jsToLower topic2 = jsToLower topic →
      handleWebhook topic2 payload shopId st = handleWebhook topic payload shopId st) ∧
    (∀ e, eventsPostCreate topic payload shopId = some e →
      e.topic = jsToLower topic ∧ ∀ c ∈ e.topic, ¬(65 ≤ c.toNat ∧ c.toNat ≤ 90)) := by
  refine ⟨?_, jsToLower_no_upper topic, ?_, ?_⟩
  · unfold handleWebhook
    dsimp only
    repeat' split
    all_goals rfl
  · intro topic2 h
    simp only [handleWebhook, h]
  · intro e he
    unfold eventsPostCreate at he
    split at he
    · cases he
    · cases he
      exact ⟨rfl, jsToLower_no_upper topic⟩

/-- Witness for C9 at the concrete topic `"Orders/Create"`. -/
theorem eventTopics_lowercase_witness :
    (handleWebhook "Orders/Create".data (.jobj []) 1 ⟨[], [], [], []⟩).1.events =
      [⟨1, "orders/create".data, .jobj []⟩] ∧
    handleWebhook "ORDERS/CREATE".data (.jobj []) 1 ⟨[], [], [], []⟩ =
      handleWebhook "Orders/Create".data (.jobj []) 1 ⟨[], [], [], []⟩ ∧
    eventsPostCreate "Orders/Create".data (.jobj []) 1 =
      some ⟨1, "orders/create".data, .jobj []⟩ := by
  have h := eventTopics_lowercase "Orders/Create".data (.jobj []) 1 ⟨[], [], [], []⟩
  refine ⟨?_, h.2.2.1 "ORDERS/CREATE".data (by decide), by decide⟩
  rw [h.1]
  decide

/-- C5: `handleWebhook` first persists exactly one Event (with the
lowercased topic) unconditionally; it performs the typed map+upsert into
the matching collection exactly for `customers/`, `orders/` or `products/`
prefixes; cart/checkout/abandonment topics produce a `handled: event-only`
result with no typed write; any other topic produces an unhandled result,
not an error. -/
theorem handleWebhook_spec (topic : JStr) (payload : JSVal) (shopId : Nat)
    (st : AppState) :
    (handleWebhook topic payload shopId st).1.events =
      st.events ++ [⟨shopId, jsToLower topic, payload⟩] ∧
    (startsWith (jsToLower topic) "customers/".data = true →
      ∀ doc, mapCustomer payload shopId = .ok doc →
        (handleWebhook topic payload shopId st).1.customers =
          (upsertDocuments st.customers [doc]).1 ∧
        (handleWebhook topic payload shopId st).1.orders = st.orders ∧
        (handleWebhook topic payload shopId st).1.products = st.products ∧
        (handleWebhook topic payload shopId st).2 = .ok .customer) ∧
    (startsWith (jsToLower topic) "customers/".data = false →
     startsWith (jsToLower topic) "orders/".data = true →
      ∀ doc, mapOrder payload shopId = .ok doc →
        (handleWebhook topic payload shopId st).1.orders =
          (upsertDocuments st.orders [doc]).1 ∧
        (handleWebhook topic payload shopId st).1.customers = st.customers ∧
        (handleWebhook topic payload shopId st).1.products = st.products ∧
        (handleWebhook topic payload shopId st).2 = .ok .order) ∧
    (startsWith (jsToLower topic) "customers/".data = false →
     startsWith (jsToLower topic) "orders/".data = false →
     startsWith (jsToLower topic) "products/".data = true →
      ∀ doc, mapProduct payload shopId = .ok doc →
        (handleWebhook topic payload shopId st).1.products =
          (upsertDocuments st.products [doc]).1 ∧
        (handleWebhook topic payload shopId st).1.customers = st.customers ∧
        (handleWebhook topic payload shopId st).1.orders = st.orders ∧
        (handleWebhook topic payload shopId st).2 = .ok .product) ∧
    (startsWith (jsToLower topic) "customers/".data = false →
      (handleWebhook topic payload shopId st).1.customers = st.customers) ∧
    (startsWith (jsToLower topic) "orders/".data = false →
      (handleWebhook topic payload shopId st).1.orders = st.orders) ∧
    (startsWith (jsToLower topic) "products/".data = false →
      (handleWebhook topic payload shopId st).1.products = st.products) ∧
    (startsWith (jsToLower topic) "customers/".data = false →
     startsWith (jsToLower topic) "orders/".data = false →
     startsWith (jsToLower topic) "products/".data = false →
     cartishTopic (jsToLower topic) = true →
      (handleWebhook topic payload shopId st).2 = .ok .eventOnly) ∧
    (startsWith (jsToLower topic) "customers/".data = false →
     startsWith (jsToLower topic) "orders/".data = false →
     startsWith (jsToLower topic) "products/".data = false →
     cartishTopic (jsToLower topic) = false →
      (handleWebhook topic payload shopId st).2 = .ok .unhandled) := by
  refine ⟨?_, ?_, ?_, ?_, ?_, ?_, ?_, ?_, ?_⟩
  · unfold handleWebhook
    dsimp only
    repeat' split
    all_goals rfl
  · intro hc doc hdoc
    simp only [handleWebhook, hc, hdoc]
    exact ⟨rfl, rfl, rfl, rfl⟩
  · intro hc ho doc hdoc
    simp only [handleWebhook, hc, ho, hdoc, Bool.false_eq_true, if_false]
    exact ⟨rfl, rfl, rfl, rfl⟩
  · intro hc ho hp doc hdoc
    simp only [handleWebhook, hc, ho, hp, hdoc, Bool.false_eq_true, if_false]
    exact ⟨rfl, rfl, rfl, rfl⟩
  · intro hc
    simp only [handleWebhook, hc, Bool.false_eq_true, if_false]
    repeat' split
    all_goals rfl
  · intro ho
    unfold handleWebhook
    dsimp only
    repeat' split
    all_goals first | rfl | (exfalso; simp_all)
  · intro hp
    unfold handleWebhook
    dsimp only
    repeat' split
    all_goals first | rfl | (exfalso; simp_all)
  · intro hc ho hp hcart
    simp only [handleWebhook, hc, ho, hp, hcart, Bool.false_eq_true, if_false, if_true]
  · intro hc ho hp hcart
    simp only [handleWebhook, hc, ho, hp, hcart, Bool.false_eq_true, if_false]

/-- Witness for C5 at the concrete topic `"carts/create"`: exactly one
Event record, zero typed writes, and an event-only handled result. -/
theorem handleWebhook_spec_witness :
    (handleWebhook "carts/create".data (.jobj []) 1 ⟨[], [], [], []⟩).1.events =
      [⟨1, "carts/create".data, .jobj []⟩] ∧
    (handleWebhook "carts/create".data (.jobj []) 1 ⟨[], [], [], []⟩).1.customers = [] ∧
    (handleWebhook "carts/create".data (.jobj []) 1 ⟨[], [], [], []⟩).1.orders = [] ∧
    (handleWebhook "carts/create".data (.jobj []) 1 ⟨[], [], [], []⟩).1.products = [] ∧
    (handleWebhook "carts/create".data (.jobj []) 1 ⟨[], [], [], []⟩).2 =
      .ok .eventOnly := by
  have h := handleWebhook_spec "carts/create".data (.jobj []) 1 ⟨[], [], [], []⟩
  refine ⟨?_, h.2.2.2.2.1 (by decide), h.2.2.2.2.2.1 (by decide),
    h.2.2.2.2.2.2.1 (by decide),
    h.2.2.2.2.2.2.2.1 (by decide) (by decide) (by decide) (by decide)⟩
  rw [h.1]
  decide

/-! ### Paginator theorems (C1) -/

theorem fetchLoop_spec {α : Type} (server : Option JStr → PageResp α) (k : Nat)
    (hmid : ∀ i, i < k → truthyCursor (cursorSeq server (i + 1)) = true)
    (hend : truthyCursor (cursorSeq server (k + 1)) = false) :
    ∀ m j acc calls fuel, j + m = k → m + 1 ≤ fuel →
      fetchLoop server fuel (cursorSeq server j) acc calls =
        some (acc ++ ((List.range' j (m + 1)).map
          (fun i => (server (cursorSeq server i)).data)).flatten, calls + (m + 1)) := by
  intro m
  induction m with
  | zero =>
    intro j acc calls fuel hj hfuel
    obtain ⟨f, rfl⟩ : ∃ f, fuel = f + 1 := ⟨fuel - 1, by omega⟩
    have hjk : j = k := by omega
    subst hjk
    unfold fetchLoop
    dsimp only
    rw [show parsePageInfo (server (cursorSeq server j)).link = cursorSeq server (j + 1)
      from rfl, hend]
    simp [List.range'_succ]
  | succ n ih =>
    intro j acc calls fuel hj hfuel
    obtain ⟨f, rfl⟩ : ∃ f, fuel = f + 1 := ⟨fuel - 1, by omega⟩
    unfold fetchLoop
    dsimp only
    have hjk : j < k := by omega
    rw [show parsePageInfo (server (cursorSeq server j)).link = cursorSeq server (j + 1)
      from rfl, hmid j hjk]
    simp only [if_true]
    rw [ih (j + 1) (acc ++ (server (cursorSeq server j)).data) (calls + 1) f
      (by omega) (by omega)]
    conv_rhs => rw [List.range'_succ, List.map_cons, List.flatten_cons]
    have hn : calls + 1 + (n + 1) = calls + (n + 1 + 1) := by omega
    rw [hn, List.append_assoc]

/-- C1: for any server whose first `k` responses carry a truthy `page_info`
cursor under `rel="next"` and whose `(k+1)`-st does not,
`fetchPaginatedResource` (given enough fuel) returns the ordered
concatenation of the per-page record arrays — one request per page,
starting with a cursor-less request — making exactly `k + 1` HTTP calls and
stopping at the first response without a next cursor. -/
theorem fetchPaginatedResource_pages {α : Type} (server : Option JStr → PageResp α)
    (k fuel : Nat)
    (hmid : ∀ i, i < k → truthyCursor (cursorSeq server (i + 1)) = true)
    (hend : truthyCursor (cursorSeq server (k + 1)) = false)
    (hfuel : k + 1 ≤ fuel) :
    fetchPaginatedResource server fuel =
      some (((List.range (k + 1)).map
        (fun i => (server (cursorSeq server i)).data)).flatten, k + 1) := by
  unfold fetchPaginatedResource
  have h := fetchLoop_spec server k hmid hend k 0 [] 0 fuel (by omega) hfuel
  rw [show cursorSeq server 0 = (none : Option JStr) from rfl] at h
  rw [h, List.range_eq_range']
  simp

set_option maxRecDepth 8000 in
/-- Witness for C1: against the 3-page 250/250/10 fixture the paginator
returns exactly the 510 records in arrival order with exactly 3 calls. -/
theorem fetchPaginatedResource_pages_witness :
    fetchPaginatedResource server3 3 = some (List.range 510, 3) ∧
    (List.range 510).length = 510 := by
  have h := fetchPaginatedResource_pages server3 2 3
    (by decide) (by decide) (by omega)
  refine ⟨?_, by simp⟩
  rw [h]
  rfl

/-! ### Sync orchestrator theorems (C6) -/

theorem syncGo_preserve_error (env : ResourceKind → List JSVal) (shopId : Nat) :
    ∀ (resources : List JStr) (st : Collections) (summary : List (JStr × SummaryEntry))
      (st' : Collections) (sum' : List (JStr × SummaryEntry)),
      syncGo env shopId resources st summary = .ok (st', sum') →
      ∀ r, configLookup r = none → assocGet summary r = some .errorUnsupported →
        assocGet sum' r = some .errorUnsupported := by
  intro resources
  induction resources with
  | nil =>
    intro st summary st' sum' h r hcfg hr
    unfold syncGo at h
    cases h
    exact hr
  | cons r0 rest ih =>
    intro st summary st' sum' h r hcfg hr
    unfold syncGo at h
    rcases hcfg0 : configLookup r0 with _ | k <;> simp only [hcfg0] at h
    · refine ih _ _ _ _ h r hcfg ?_
      by_cases hr0 : r0 = r
      · subst hr0
        rw [assocGet_assocSet_self]
      · rw [assocGet_assocSet_ne _ _ _ _ hr0]
        exact hr
    · rcases hdocs : (env k).mapM (fun item => resourceMapFn k item shopId) with e | docs <;>
        rw [hdocs] at h
      · cases h
      · refine ih _ _ _ _ h r hcfg ?_
        have hr0 : r0 ≠ r := by
          intro hx
          rw [hx, hcfg] at hcfg0
          cases hcfg0
        rw [assocGet_assocSet_ne _ _ _ _ hr0]
        exact hr

theorem syncGo_error_entry (env : ResourceKind → List JSVal) (shopId : Nat) :
    ∀ (resources : List JStr) (st : Collections) (summary : List (JStr × SummaryEntry))
      (st' : Collections) (sum' : List (JStr × SummaryEntry)),
      syncGo env shopId resources st summary = .ok (st', sum') →
      ∀ r ∈ resources, configLookup r = none →
        assocGet sum' r = some .errorUnsupported := by
  intro resources
  induction resources with
  | nil =>
    intro st summary st' sum' h r hr
    cases hr
  | cons r0 rest ih =>
    intro st summary st' sum' h r hr hcfg
    unfold syncGo at h
    rcases hcfg0 : configLookup r0 with _ | k <;> simp only [hcfg0] at h
    · rcases List.mem_cons.mp hr with rfl | hr'
      · exact syncGo_preserve_error env shopId _ _ _ _ _ h r hcfg
          (assocGet_assocSet_self _ _ _)
      · exact ih _ _ _ _ h r hr' hcfg
    · rcases hdocs : (env k).mapM (fun item => resourceMapFn k item shopId) with e | docs <;>
        rw [hdocs] at h
      · cases h
      · rcases List.mem_cons.mp hr with rfl | hr'
        · rw [hcfg] at hcfg0
          cases hcfg0
        · exact ih _ _ _ _ h r hr' hcfg

theorem syncGo_filter (env : ResourceKind → List JSVal) (shopId : Nat) :
    ∀ (resources : List JStr) (st : Collections)
      (summary summaryF : List (JStr × SummaryEntry)),
      (∀ r', (configLookup r').isSome = true → assocGet summary r' = assocGet summaryF r') →
      ∀ st' sum', syncGo env shopId resources st summary = .ok (st', sum') →
        ∃ sumF,
          syncGo env shopId (resources.filter (fun x => (configLookup x).isSome)) st
            summaryF = .ok (st', sumF) ∧
          ∀ r', (configLookup r').isSome = true → assocGet sum' r' = assocGet sumF r' := by
  intro resources
  induction resources with
  | nil =>
    intro st summary summaryF hrel st' sum' h
    unfold syncGo at h
    cases h
    exact ⟨summaryF, rfl, hrel⟩
  | cons r0 rest ih =>
    intro st summary summaryF hrel st' sum' h
    unfold syncGo at h
    rcases hcfg0 : configLookup r0 with _ | k <;> simp only [hcfg0] at h
    · rw [List.filter_cons_of_neg (by simp [hcfg0])]
      refine ih st _ summaryF ?_ st' sum' h
      intro r' hr'
      have hne : r0 ≠ r' := by
        intro hx
        rw [hx] at hcfg0
        rw [hcfg0] at hr'
        cases hr'
      rw [assocGet_assocSet_ne _ _ _ _ hne]
      exact hrel r' hr'
    · rw [List.filter_cons_of_pos (by simp [hcfg0])]
      unfold syncGo
      simp only [hcfg0]
      rcases hdocs : (env k).mapM (fun item => resourceMapFn k item shopId) with e | docs <;>
        simp only [hdocs] at h ⊢
      · cases h
      · refine ih _ _ _ ?_ st' sum' h
        intro r' hr'
        by_cases hr0 : r0 = r'
        · subst hr0
          rw [assocGet_assocSet_self, assocGet_assocSet_self]
        · rw [assocGet_assocSet_ne _ _ _ _ hr0, assocGet_assocSet_ne _ _ _ _ hr0]
          exact hrel r' hr'

/-- C6: when a sync run over a requested kind list succeeds, every
unrecognized kind has an `unsupported resource` error entry in the summary
(the run continued past it), and every supported kind's entry is exactly
what the run restricted to the supported kinds would produce — the
unrecognized siblings have no effect on it, nor on the collections. -/
theorem syncShopResources_spec (env : ResourceKind → List JSVal) (shopId : Nat)
    (st : Collections) (resources : List JStr) (st' : Collections)
    (summary : List (JStr × SummaryEntry))
    (h : syncShopResources env shopId st resources = .ok (st', summary)) :
    ∀ r ∈ resources,
      (configLookup r = none → assocGet summary r = some .errorUnsupported) ∧
      ((configLookup r).isSome = true →
        ∃ sumF,
          syncShopResources env shopId st
            (resources.filter (fun x => (configLookup x).isSome)) = .ok (st', sumF) ∧
          assocGet summary r = assocGet sumF r) := by
  intro r hr
  constructor
  · intro hcfg
    exact syncGo_error_entry env shopId resources st [] st' summary h r hr hcfg
  · intro hcfg
    obtain ⟨sumF, hF, hrel⟩ :=
      syncGo_filter env shopId resources st [] [] (fun r' _ => rfl) st' summary h
    exact ⟨sumF, hF, hrel r hcfg⟩

/-- Witness for C6 on the concrete request `['orders', 'bogus']`: the run
succeeds with a populated orders entry, a `bogus` error entry, and the same
orders entry as the `['orders']`-only run. -/
theorem syncShopResources_spec_witness :
    syncShopResources c6env 1 ⟨[], [], []⟩ ["orders".data, "bogus".data] =
      .ok (⟨[], [stripUndef c6orderDoc], []⟩,
        [("orders".data, .counts 1 1), ("bogus".data, .errorUnsupported)]) ∧
    assocGet [("orders".data, SummaryEntry.counts 1 1),
        ("bogus".data, SummaryEntry.errorUnsupported)] ("bogus".data) =
      some .errorUnsupported ∧
    assocGet [("orders".data, SummaryEntry.counts 1 1),
        ("bogus".data, SummaryEntry.errorUnsupported)] ("orders".data) =
      some (.counts 1 1) := by
  have hrun : syncShopResources c6env 1 ⟨[], [], []⟩ ["orders".data, "bogus".data] =
      .ok (⟨[], [stripUndef c6orderDoc], []⟩,
        [("orders".data, .counts 1 1), ("bogus".data, .errorUnsupported)]) := by rfl
  have h := syncShopResources_spec c6env 1 ⟨[], [], []⟩ _ _ _ hrun
  exact ⟨hrun, (h ("bogus".data) (by decide)).1 rfl, by rfl⟩

/-! ### Upsert-writer lemmas (C2, C10) -/

theorem assocGet_eq_none_of_not_mem {α β : Type} [DecidableEq α] {l : List (α × β)} {k : α}
    (h : k ∉ assocKeys l) : assocGet l k = none := by
  induction l with
  | nil => rfl
  | cons kv rest ih =>
    have h1 : ¬(kv.1 = k) := fun hx => h (by simp [assocKeys, hx])
    have h2 : k ∉ assocKeys rest := fun hx => h (by simp [assocKeys] at hx ⊢; right; exact hx)
    simpa [assocGet, List.find?, h1] using ih h2

theorem assocKeys_stripUndef_sublist (d : Obj) :
    (assocKeys (stripUndef d)).Sublist (assocKeys d) := by
  unfold assocKeys stripUndef
  exact (List.filter_sublist d).map _

theorem nodupKeys_cons {kv : JStr × JSVal} {rest : Obj}
    (h : (assocKeys (kv :: rest)).Nodup) :
    kv.1 ∉ assocKeys rest ∧ (assocKeys rest).Nodup := by
  simp only [assocKeys, List.map_cons] at h
  exact List.nodup_cons.mp h

theorem stripUndef_cons_undef {kv : JStr × JSVal} {rest : Obj} (hv : kv.2 = .undef) :
    stripUndef (kv :: rest) = stripUndef rest := by
  simp [stripUndef, hv]

theorem stripUndef_cons_def {kv : JStr × JSVal} {rest : Obj} (hv : kv.2 ≠ .undef) :
    stripUndef (kv :: rest) = kv :: stripUndef rest := by
  simp [stripUndef, hv]

theorem assocGet_cons_self {kv : JStr × JSVal} {rest : Obj} :
    assocGet (kv :: rest) kv.1 = some kv.2 := by
  simp [assocGet, List.find?]

theorem assocGet_cons_ne {kv : JStr × JSVal} {rest : Obj} {k : JStr} (h : ¬(kv.1 = k)) :
    assocGet (kv :: rest) k = assocGet rest k := by
  simp [assocGet, List.find?, h]

theorem assocGet_stripUndef {d : Obj} (hnd : (assocKeys d).Nodup) (k : JStr) :
    assocGet (stripUndef d) k =
      (assocGet d k).bind (fun v => if v = .undef then none else some v) := by
  induction d with
  | nil => rfl
  | cons kv rest ih =>
    obtain ⟨hk, hnd2⟩ := nodupKeys_cons hnd
    by_cases hkey : kv.1 = k
    · subst hkey
      by_cases hv : kv.2 = .undef
      · have hnone : assocGet (stripUndef rest) kv.1 = none :=
          assocGet_eq_none_of_not_mem
            (fun hx => hk ((assocKeys_stripUndef_sublist rest).subset hx))
        rw [stripUndef_cons_undef hv, hnone, assocGet_cons_self, hv]
        rfl
      · rw [stripUndef_cons_def hv, assocGet_cons_self, assocGet_cons_self]
        simp [hv]
    · rw [assocGet_cons_ne hkey]
      by_cases hv : kv.2 = .undef
      · rw [stripUndef_cons_undef hv]
        exact ih hnd2
      · rw [stripUndef_cons_def hv, assocGet_cons_ne hkey]
        exact ih hnd2

theorem assocGet_applySet {sdoc : Obj} (hnd : (assocKeys sdoc).Nodup) :
    ∀ (o : Obj) (k : JStr),
      assocGet (applySet o sdoc) k =
        match assocGet sdoc k with
        | some v => some v
        | none => assocGet o k := by
  induction sdoc with
  | nil =>
    intro o k
    rfl
  | cons kv rest ih =>
    intro o k
    obtain ⟨hk, hnd2⟩ := nodupKeys_cons hnd
    have hfold : applySet o (kv :: rest) = applySet (assocSet o kv.1 kv.2) rest := rfl
    rw [hfold, ih hnd2]
    by_cases hkey : kv.1 = k
    · subst hkey
      have hrest : assocGet rest kv.1 = none := assocGet_eq_none_of_not_mem hk
      rw [hrest, assocGet_cons_self, assocGet_assocSet_self]
    · rw [assocGet_cons_ne hkey]
      cases hrest : assocGet rest k with
      | some v => rfl
      | none =>
        exact assocGet_assocSet_ne o kv.1 k kv.2 hkey

theorem applyUpdateOne_no_match {coll : List Obj} {doc : Obj}
    (h : ∀ r ∈ coll, filterMatches r doc = false) :
    applyUpdateOne coll doc = (coll ++ [stripUndef doc], .upserted) := by
  induction coll with
  | nil => rfl
  | cons r rs ih =>
    unfold applyUpdateOne
    rw [h r (List.mem_cons_self r rs)]
    simp only [Bool.false_eq_true, if_false]
    rw [ih (fun r2 hr2 => h r2 (List.mem_cons_of_mem r hr2))]
    rfl

theorem applyUpdateOne_match_at_end {coll : List Obj} {r0 doc : Obj}
    (h : ∀ r ∈ coll, filterMatches r doc = false)
    (hr0 : filterMatches r0 doc = true) :
    applyUpdateOne (coll ++ [r0]) doc =
      (coll ++ [applySet r0 (stripUndef doc)],
        if applySet r0 (stripUndef doc) = r0 then .matchedSame else .matchedMod) := by
  induction coll with
  | nil =>
    simp only [List.nil_append]
    unfold applyUpdateOne
    rw [hr0]
    simp
  | cons r rs ih =>
    simp only [List.cons_append]
    unfold applyUpdateOne
    rw [h r (List.mem_cons_self r rs)]
    simp only [Bool.false_eq_true, if_false]
    rw [ih (fun r2 hr2 => h r2 (List.mem_cons_of_mem r hr2))]

theorem filterMatches_congr {d1 d2 : Obj} (r : Obj)
    (hshop : assocGet d1 shopKey = assocGet d2 shopKey)
    (hid : assocGet d1 shopifyIdKey = assocGet d2 shopifyIdKey) :
    filterMatches r d1 = filterMatches r d2 := by
  unfold filterMatches
  rw [hshop, hid]

theorem upsertDocuments_singleton (coll : List Obj) (doc : Obj) :
    upsertDocuments coll [doc] =
      ((applyUpdateOne coll doc).1,
        match (applyUpdateOne coll doc).2 with
        | .upserted => 1
        | .matchedSame => 1
        | .matchedMod => 2) := by
  unfold upsertDocuments
  rw [if_neg (by simp)]
  unfold bulkWrite
  simp only [List.foldl_cons, List.foldl_nil]
  unfold bulkStep
  dsimp only
  rcases h : (applyUpdateOne coll doc).2 with _ | _ | _ <;> simp [h]

/-! ### Upsert replace-vs-merge (C2) -/

/-- Counterexample to C2 as stated: upserting the same customer twice —
first with `total_spent: "5"`, then with `total_spent: ""` (mapped to an
absent `totalSpent`) — leaves one record whose `totalSpent` is still `5`:
a field value absent from the second document survived from the first, so
the persisted record's field values are NOT those of the second write. -/
theorem upsertDocuments_replace_counterexample :
    mapCustomer c2raw1 1 = .ok c2doc1 ∧
    mapCustomer c2raw2 1 = .ok c2doc2 ∧
    assocGet c2doc1 shopKey = assocGet c2doc2 shopKey ∧
    assocGet c2doc1 shopifyIdKey = assocGet c2doc2 shopifyIdKey ∧
    assocGet c2doc2 ("totalSpent".data) = some .undef ∧
    assocGet (stripUndef c2doc2) ("totalSpent".data) = none ∧
    (upsertDocuments (upsertDocuments [] [c2doc1]).1 [c2doc2]).1 =
      [applySet (stripUndef c2doc1) (stripUndef c2doc2)] ∧
    assocGet (applySet (stripUndef c2doc1) (stripUndef c2doc2)) ("totalSpent".data) =
      some (.jnum (jint 5)) := by
  refine ⟨by decide, by decide, by decide, by decide, by decide, by decide, by decide,
    by decide⟩

/-- C2 (amended): upserting two mapped documents with the same
(tenant, externalId) key into a collection holding no record for that key
leaves exactly one record for the key; every field present (non-undefined)
in the second document carries the second document's value, but a field
absent from (or undefined in) the second document and present in the first
survives with the first document's value — `$set` merges at field
granularity, it does not replace the whole document. -/
theorem upsertDocuments_twice (coll : List Obj) (d1 d2 : Obj)
    (hnm : ∀ r ∈ coll, filterMatches r d1 = false)
    (hshop : assocGet d1 shopKey = assocGet d2 shopKey)
    (hid : assocGet d1 shopifyIdKey = assocGet d2 shopifyIdKey)
    (hsv : ∃ v, assocGet d1 shopKey = some v ∧ v ≠ .undef)
    (hiv : ∃ v, assocGet d1 shopifyIdKey = some v ∧ v ≠ .undef)
    (hnd1 : (assocKeys d1).Nodup) (hnd2 : (assocKeys d2).Nodup) :
    (upsertDocuments (upsertDocuments coll [d1]).1 [d2]).1 =
      coll ++ [applySet (stripUndef d1) (stripUndef d2)] ∧
    ((upsertDocuments (upsertDocuments coll [d1]).1 [d2]).1.countP
      (fun r => filterMatches r d2)) = 1 ∧
    (∀ k v, assocGet d2 k = some v → v ≠ .undef →
      assocGet (applySet (stripUndef d1) (stripUndef d2)) k = some v) ∧
    (∀ k v, (assocGet d2 k = none ∨ assocGet d2 k = some .undef) →
      assocGet d1 k = some v → v ≠ .undef →
      assocGet (applySet (stripUndef d1) (stripUndef d2)) k = some v) := by
  obtain ⟨sv, hsv1, hsv2⟩ := hsv
  obtain ⟨iv, hiv1, hiv2⟩ := hiv
  have hnd2s : (assocKeys (stripUndef d2)).Nodup :=
    (assocKeys_stripUndef_sublist d2).nodup hnd2
  have hstep1 : (upsertDocuments coll [d1]).1 = coll ++ [stripUndef d1] := by
    rw [upsertDocuments_singleton, applyUpdateOne_no_match hnm]
  have hmatches2 : ∀ r ∈ coll, filterMatches r d2 = false := fun r hr =>
    (filterMatches_congr r hshop hid) ▸ hnm r hr
  have hd2shop : assocGet d2 shopKey = some sv := hshop ▸ hsv1
  have hd2id : assocGet d2 shopifyIdKey = some iv := hid ▸ hiv1
  have hm : filterMatches (stripUndef d1) d2 = true := by
    unfold filterMatches
    rw [assocGet_stripUndef hnd1 shopKey, assocGet_stripUndef hnd1 shopifyIdKey,
      hsv1, hiv1, hd2shop, hd2id]
    simp [Option.bind, hsv2, hiv2]
  have hgetset : ∀ k, assocGet (applySet (stripUndef d1) (stripUndef d2)) k =
      match assocGet (stripUndef d2) k with
      | some v => some v
      | none => assocGet (stripUndef d1) k := fun k => assocGet_applySet hnd2s _ k
  have hrec : filterMatches (applySet (stripUndef d1) (stripUndef d2)) d2 = true := by
    unfold filterMatches
    rw [hgetset shopKey, hgetset shopifyIdKey,
      assocGet_stripUndef hnd2 shopKey, assocGet_stripUndef hnd2 shopifyIdKey,
      hd2shop, hd2id]
    simp [Option.bind, hsv2, hiv2, hd2shop, hd2id]
  have hfinal : (upsertDocuments (upsertDocuments coll [d1]).1 [d2]).1 =
      coll ++ [applySet (stripUndef d1) (stripUndef d2)] := by
    rw [hstep1, upsertDocuments_singleton, applyUpdateOne_match_at_end hmatches2 hm]
  refine ⟨hfinal, ?_, ?_, ?_⟩
  · rw [hfinal, List.countP_append]
    have h0 : coll.countP (fun r => filterMatches r d2) = 0 := by
      rw [List.countP_eq_zero]
      intro r hr
      simp [hmatches2 r hr]
    rw [h0]
    simp [List.countP_cons, hrec]
  · intro k v hk hv
    rw [hgetset k, assocGet_stripUndef hnd2 k, hk]
    simp [Option.bind, hv]
  · intro k v hk2 hk1 hv
    have hnone : assocGet (stripUndef d2) k = none := by
      rw [assocGet_stripUndef hnd2 k]
      rcases hk2 with hk2 | hk2 <;> simp [hk2, Option.bind]
    rw [hgetset k, hnone, assocGet_stripUndef hnd1 k, hk1]
    simp [Option.bind, hv]

/-- Witness for the amended C2 on the concrete pair `c2doc1`, `c2doc2`:
one record remains; `shopifyId` (present in the second write) has the
second write's value, while `totalSpent` (absent from the second write)
survives from the first. -/
theorem upsertDocuments_twice_witness :
    (upsertDocuments (upsertDocuments [] [c2doc1]).1 [c2doc2]).1 =
      [applySet (stripUndef c2doc1) (stripUndef c2doc2)] ∧
    ((upsertDocuments (upsertDocuments [] [c2doc1]).1 [c2doc2]).1.countP
      (fun r => filterMatches r c2doc2)) = 1 ∧
    assocGet (applySet (stripUndef c2doc1) (stripUndef c2doc2)) shopifyIdKey =
      some (.jstr "1".data) ∧
    assocGet (applySet (stripUndef c2doc1) (stripUndef c2doc2)) ("totalSpent".data) =
      some (.jnum (jint 5)) := by
  have h := upsertDocuments_twice [] c2doc1 c2doc2 (by simp) (by decide) (by decide)
    ⟨.jnum (jint 1), by decide, by decide⟩ ⟨.jstr "1".data, by decide, by decide⟩
    (by decide) (by decide)
  refine ⟨by simpa using h.1, by simpa using h.2.1, ?_, ?_⟩
  · exact h.2.2.1 shopifyIdKey (.jstr "1".data) (by decide) (by decide)
  · exact h.2.2.2 ("totalSpent".data) (.jnum (jint 5)) (Or.inr (by decide)) (by decide) (by decide)

/-! ### Resource-mapper lemmas and theorems (C4) -/

theorem mapM_trimTag_ok {xs : List JSVal} (h : xs.all isStrVal = true) :
    ∃ l, xs.mapM trimTag = Except.ok l := by
  induction xs with
  | nil => exact ⟨[], rfl⟩
  | cons x t ih =>
    rw [List.all_cons, Bool.and_eq_true] at h
    obtain ⟨l, hl⟩ := ih h.2
    cases x with
    | jstr s => exact ⟨jsTrim s :: l, by rw [List.mapM_cons, hl]; rfl⟩
    | undef => cases h.1
    | jnull => cases h.1
    | jbool b => cases h.1
    | jnum q => cases h.1
    | jarr ys => cases h.1
    | jobj gs => cases h.1

theorem normalizeTags_ok {t : JSVal} (h : wfTags t = true) :
    ∃ l, normalizeTags t = Except.ok l := by
  unfold normalizeTags
  split
  · exact ⟨[], rfl⟩
  · cases t with
    | jarr xs =>
      obtain ⟨l, hl⟩ := mapM_trimTag_ok (by simpa [wfTags] using h)
      refine ⟨l.filter (fun s => s ≠ []), ?_⟩
      dsimp only
      rw [hl]
      rfl
    | undef => exact ⟨_, rfl⟩
    | jnull => exact ⟨_, rfl⟩
    | jbool b => exact ⟨_, rfl⟩
    | jnum q => exact ⟨_, rfl⟩
    | jstr s => exact ⟨_, rfl⟩
    | jobj gs => exact ⟨_, rfl⟩

theorem mapLineItem_ok {v : JSVal} (h : notNullish v = true) :
    ∃ out, mapLineItem v = Except.ok out := by
  cases v with
  | jnull => cases h
  | undef => cases h
  | jbool b => exact ⟨_, rfl⟩
  | jnum q => exact ⟨_, rfl⟩
  | jstr s => exact ⟨_, rfl⟩
  | jarr xs => exact ⟨_, rfl⟩
  | jobj fs => exact ⟨_, rfl⟩

theorem mapVariant_ok {v : JSVal} (h : notNullish v = true) :
    ∃ out, mapVariant v = Except.ok out := by
  cases v with
  | jnull => cases h
  | undef => cases h
  | jbool b => exact ⟨_, rfl⟩
  | jnum q => exact ⟨_, rfl⟩
  | jstr s => exact ⟨_, rfl⟩
  | jarr xs => exact ⟨_, rfl⟩
  | jobj fs => exact ⟨_, rfl⟩

theorem mapM_mapLineItem_ok {xs : List JSVal} (h : xs.all notNullish = true) :
    ∃ l, xs.mapM (fun li => (mapLineItem li).map JSVal.jobj) = Except.ok l := by
  induction xs with
  | nil => exact ⟨[], rfl⟩
  | cons x t ih =>
    rw [List.all_cons, Bool.and_eq_true] at h
    obtain ⟨out, hout⟩ := mapLineItem_ok h.1
    obtain ⟨l, hl⟩ := ih h.2
    exact ⟨JSVal.jobj out :: l, by rw [List.mapM_cons, hout, hl]; rfl⟩

theorem mapM_mapVariant_ok {xs : List JSVal} (h : xs.all notNullish = true) :
    ∃ l, xs.mapM (fun v => (mapVariant v).map JSVal.jobj) = Except.ok l := by
  induction xs with
  | nil => exact ⟨[], rfl⟩
  | cons x t ih =>
    rw [List.all_cons, Bool.and_eq_true] at h
    obtain ⟨out, hout⟩ := mapVariant_ok h.1
    obtain ⟨l, hl⟩ := ih h.2
    exact ⟨JSVal.jobj out :: l, by rw [List.mapM_cons, hout, hl]; rfl⟩

theorem mapOrderCustomer_ok (cust : JSVal) : ∃ cv, mapOrderCustomer cust = Except.ok cv := by
  cases cust with
  | jbool b => cases b <;> exact ⟨_, rfl⟩
  | jnum q =>
    unfold mapOrderCustomer
    split <;> exact ⟨_, rfl⟩
  | jstr s =>
    unfold mapOrderCustomer
    split <;> exact ⟨_, rfl⟩
  | undef => exact ⟨_, rfl⟩
  | jnull => exact ⟨_, rfl⟩
  | jarr xs => exact ⟨_, rfl⟩
  | jobj fs => exact ⟨_, rfl⟩

theorem mapOrderLineItems_ok {v : JSVal} (h : wfElems v = true) :
    ∃ l, mapOrderLineItems v = Except.ok l := by
  unfold mapOrderLineItems
  by_cases ht : jsTruthy v = true
  · rw [if_pos ht]
    unfold wfElems at h
    rw [ht] at h
    simp only [Bool.not_true, Bool.false_or] at h
    cases v with
    | jarr xs =>
      obtain ⟨l, hl⟩ := mapM_mapLineItem_ok h
      exact ⟨l, hl⟩
    | undef => cases h
    | jnull => cases h
    | jbool b => cases h
    | jnum q => cases h
    | jstr s => cases h
    | jobj fs => cases h
  · rw [if_neg ht]
    exact ⟨[], rfl⟩

theorem mapProductVariants_ok {v : JSVal} (h : wfElems v = true) :
    ∃ l, mapProductVariants v = Except.ok l := by
  unfold mapProductVariants
  by_cases ht : jsTruthy v = true
  · rw [if_pos ht]
    unfold wfElems at h
    rw [ht] at h
    simp only [Bool.not_true, Bool.false_or] at h
    cases v with
    | jarr xs =>
      obtain ⟨l, hl⟩ := mapM_mapVariant_ok h
      exact ⟨l, hl⟩
    | undef => cases h
    | jnull => cases h
    | jbool b => cases h
    | jnum q => cases h
    | jstr s => cases h
    | jobj fs => cases h
  · rw [if_neg ht]
    exact ⟨[], rfl⟩

theorem jsGetOpt_ok (v : JSVal) (k : JStr) : ∃ w, jsGetOpt v k = Except.ok w := by
  unfold jsGetOpt
  split
  · exact ⟨.undef, rfl⟩
  · rename_i h
    cases v with
    | jnull => exact absurd (Or.inl rfl) h
    | undef => exact absurd (Or.inr rfl) h
    | jbool b => exact ⟨_, rfl⟩
    | jnum q => exact ⟨_, rfl⟩
    | jstr s => exact ⟨_, rfl⟩
    | jarr xs => exact ⟨_, rfl⟩
    | jobj fs => exact ⟨_, rfl⟩

theorem mapCustomer_jobj (fs : Obj) (sid : Nat) :
    mapCustomer (.jobj fs) sid =
      (normalizeTags (objGet fs "tags".data)).bind (fun tags =>
        (jsGetOpt (objGet fs "default_address".data) "country_code".data).bind
          (fun country =>
            Except.ok [("shop".data, .jnum (jint sid)),
              ("shopifyId".data, .jstr (jsToString (objGet fs "id".data))),
              ("email".data, objGet fs "email".data),
              ("phone".data, objGet fs "phone".data),
              ("firstName".data, objGet fs "first_name".data),
              ("lastName".data, objGet fs "last_name".data),
              ("tags".data, .jarr (tags.map .jstr)),
              ("totalSpent".data, optNum (toNumber (objGet fs "total_spent".data))),
              ("state".data, objGet fs "state".data),
              ("country".data, country),
              ("marketingOptInLevel".data, objGet fs "marketing_opt_in_level".data),
              ("shopifyCreatedAt".data, objGet fs "created_at".data),
              ("shopifyUpdatedAt".data, objGet fs "updated_at".data)])) := rfl

theorem mapOrder_jobj (fs : Obj) (sid : Nat) :
    mapOrder (.jobj fs) sid =
      (normalizeTags (objGet fs "tags".data)).bind (fun tags =>
        (mapOrderCustomer (objGet fs "customer".data)).bind (fun custVal =>
          (mapOrderLineItems (objGet fs "line_items".data)).bind (fun liDocs =>
            Except.ok [("shop".data, .jnum (jint sid)),
              ("shopifyId".data, .jstr (jsToString (objGet fs "id".data))),
              ("name".data, objGet fs "name".data),
              ("email".data, objGet fs "email".data),
              ("currency".data, objGet fs "currency".data),
              ("totalPrice".data, optNum (toNumber (objGet fs "total_price".data))),
              ("subtotalPrice".data, optNum (toNumber (objGet fs "subtotal_price".data))),
              ("totalDiscounts".data, optNum (toNumber (objGet fs "total_discounts".data))),
              ("financialStatus".data, objGet fs "financial_status".data),
              ("fulfillmentStatus".data, objGet fs "fulfillment_status".data),
              ("processedAt".data, objGet fs "processed_at".data),
              ("tags".data, .jarr (tags.map .jstr)),
              ("customer".data, custVal),
              ("lineItems".data, .jarr liDocs),
              ("shopifyCreatedAt".data, objGet fs "created_at".data),
              ("shopifyUpdatedAt".data, objGet fs "updated_at".data)]))) := rfl

theorem mapProduct_jobj (fs : Obj) (sid : Nat) :
    mapProduct (.jobj fs) sid =
      (normalizeTags (objGet fs "tags".data)).bind (fun tags =>
        (mapProductVariants (objGet fs "variants".data)).bind (fun vDocs =>
          Except.ok [("shop".data, .jnum (jint sid)),
            ("shopifyId".data, .jstr (jsToString (objGet fs "id".data))),
            ("title".data, objGet fs "title".data),
            ("status".data, objGet fs "status".data),
            ("productType".data, objGet fs "product_type".data),
            ("vendor".data, objGet fs "vendor".data),
            ("tags".data, .jarr (tags.map .jstr)),
            ("variants".data, .jarr vDocs),
            ("shopifyCreatedAt".data, objGet fs "created_at".data),
            ("shopifyUpdatedAt".data, objGet fs "updated_at".data)])) := rfl

/-- Counterexample to C4 as stated: an order line item whose `quantity` is
the empty string maps to a document whose `quantity` field is the present
empty string — not an absent value — because `quantity: li.quantity` copies
the raw value without `toNumber`; the sibling `price` field does get the
numeric treatment. -/
theorem mapOrder_quantity_counterexample :
    mapOrder c4rawOrder 1 = .ok c4orderDoc ∧
    mapLineItem (.jobj c4rawLineItem) = .ok c4liDoc ∧
    assocGet c4orderDoc ("lineItems".data) = some (.jarr [.jobj c4liDoc]) ∧
    assocGet c4liDoc ("quantity".data) = some (.jstr []) ∧
    JSVal.jstr [] ≠ JSVal.undef ∧
    assocGet c4liDoc ("price".data) = some (.jnum (jint 10)) := by
  refine ⟨by decide, by decide, by decide, by decide, by decide, by decide⟩

/-- C4 (amended): each mapper returns a document without throwing on
records whose `tags` value is well-formed (not an array holding a
non-string) and whose `line_items`/`variants` value is well-formed (falsy
or an array of non-nullish elements); the monetary fields go through
`toNumber`, which maps `undefined`, `null`, the empty string, and
unparsable strings to absent — but the line-item `quantity` and variant
`inventory_quantity` fields are copied verbatim with no numeric
normalization, and a whitespace-only monetary string converts to `0`
rather than absent (JS `Number(' ') === 0`). -/
theorem resourceMappers_spec :
    (∀ fs sid, wfTags (objGet fs ("tags".data)) = true →
      (mapCustomer (.jobj fs) sid).isOk = true) ∧
    (∀ fs sid, wfTags (objGet fs ("tags".data)) = true →
      wfElems (objGet fs ("line_items".data)) = true →
      (mapOrder (.jobj fs) sid).isOk = true) ∧
    (∀ fs sid, wfTags (objGet fs ("tags".data)) = true →
      wfElems (objGet fs ("variants".data)) = true →
      (mapProduct (.jobj fs) sid).isOk = true) ∧
    (∀ fs, mapLineItem (.jobj fs) = .ok
      [("shopifyId".data, .jstr (jsToString (objGet fs "id".data))),
       ("productId".data, if jsTruthy (objGet fs "product_id".data) then
          .jstr (jsToString (objGet fs "product_id".data)) else .undef),
       ("variantId".data, if jsTruthy (objGet fs "variant_id".data) then
          .jstr (jsToString (objGet fs "variant_id".data)) else .undef),
       ("name".data, objGet fs "name".data),
       ("quantity".data, objGet fs "quantity".data),
       ("price".data, optNum (toNumber (objGet fs "price".data)))]) ∧
    (∀ fs, mapVariant (.jobj fs) = .ok
      [("shopifyId".data, .jstr (jsToString (objGet fs "id".data))),
       ("title".data, objGet fs "title".data),
       ("sku".data, objGet fs "sku".data),
       ("price".data, optNum (toNumber (objGet fs "price".data))),
       ("inventoryQuantity".data, objGet fs "inventory_quantity".data)]) ∧
    toNumber .undef = none ∧
    toNumber .jnull = none ∧
    toNumber (.jstr []) = none ∧
    (∀ s, jsTrim s ≠ [] → parseDecimal (jsTrim s) = none → toNumber (.jstr s) = none) ∧
    toNumber (.jstr " ".data) = some (jint 0) := by
  refine ⟨?_, ?_, ?_, fun fs => rfl, fun fs => rfl, rfl, rfl, rfl, ?_, rfl⟩
  · intro fs sid htags
    obtain ⟨tl, htl⟩ := normalizeTags_ok htags
    obtain ⟨w, hw⟩ := jsGetOpt_ok (objGet fs "default_address".data) "country_code".data
    rw [mapCustomer_jobj, htl, hw]
    rfl
  · intro fs sid htags hli
    obtain ⟨tl, htl⟩ := normalizeTags_ok htags
    obtain ⟨cv, hcv⟩ := mapOrderCustomer_ok (objGet fs "customer".data)
    obtain ⟨ld, hld⟩ := mapOrderLineItems_ok hli
    rw [mapOrder_jobj, htl, hcv, hld]
    rfl
  · intro fs sid htags hvs
    obtain ⟨tl, htl⟩ := normalizeTags_ok htags
    obtain ⟨vd, hvd⟩ := mapProductVariants_ok hvs
    rw [mapProduct_jobj, htl, hvd]
    rfl
  · intro s h1 h2
    have hs : s ≠ [] := fun hx => h1 (by rw [hx]; rfl)
    unfold toNumber
    rw [if_neg]
    · show (if jsTrim s = [] then some (jint 0) else parseDecimal (jsTrim s)) = none
      rw [if_neg h1, h2]
    · intro hor
      rcases hor with hx | hx | hx
      · cases hx
      · cases hx
      · exact hs (JSVal.jstr.inj hx)

/-- Witness for the amended C4 at concrete records. -/
theorem resourceMappers_spec_witness :
    (mapCustomer (.jobj [("id".data, .jnum (jint 3)),
      ("tags".data, .jstr "a,b".data)]) 2).isOk = true ∧
    (mapOrder (.jobj [("id".data, .jnum (jint 9))]) 2).isOk = true ∧
    toNumber (.jstr "abc".data) = none ∧
    toNumber (.jstr " ".data) = some (jint 0) := by
  have h := resourceMappers_spec
  exact ⟨h.1 _ 2 (by decide), h.2.1 _ 2 (by decide) (by decide),
    h.2.2.2.2.2.2.2.2.1 "abc".data (by decide) (by decide),
    h.2.2.2.2.2.2.2.2.2⟩


/-! ### C10: the saved count double-counts matched-and-modified documents -/

theorem filterMatches_left_congr {r1 r2 : Obj} (d : Obj)
    (hshop : assocGet r1 shopKey = assocGet r2 shopKey)
    (hid : assocGet r1 shopifyIdKey = assocGet r2 shopifyIdKey) :
    filterMatches r1 d = filterMatches r2 d := by
  unfold filterMatches
  rw [hshop, hid]

theorem assocGet_stripUndef_some {d : Obj} (hnd : (assocKeys d).Nodup)
    {k : JStr} {v : JSVal} (h : assocGet d k = some v) (hv : v ≠ .undef) :
    assocGet (stripUndef d) k = some v := by
  rw [assocGet_stripUndef hnd k, h]
  simp [hv]

theorem applyUpdateOne_cons_true {r : Obj} {rs : List Obj} {doc : Obj}
    (h : filterMatches r doc = true) :
    applyUpdateOne (r :: rs) doc =
      (applySet r (stripUndef doc) :: rs,
        if applySet r (stripUndef doc) = r then UpdOutcome.matchedSame
        else UpdOutcome.matchedMod) := by
  unfold applyUpdateOne
  rw [h]
  rfl

theorem applyUpdateOne_cons_false {r : Obj} {rs : List Obj} {doc : Obj}
    (h : filterMatches r doc = false) :
    applyUpdateOne (r :: rs) doc =
      (r :: (applyUpdateOne rs doc).1, (applyUpdateOne rs doc).2) := by
  conv_lhs => unfold applyUpdateOne
  rw [h]
  rfl

/-- Upserting a document whose (shop, shopifyId) key differs from `d`'s does
not change the outcome that a subsequent `updateOne` for `d` reports. -/
theorem applyUpdateOne_outcome_stable {dprev d : Obj}
    (hkey : sameKeyDoc dprev d = false)
    (hsv : ∃ v, assocGet dprev shopKey = some v ∧ v ≠ .undef)
    (hiv : ∃ v, assocGet dprev shopifyIdKey = some v ∧ v ≠ .undef)
    (hnd : (assocKeys dprev).Nodup) :
    ∀ coll : List Obj,
      (applyUpdateOne (applyUpdateOne coll dprev).1 d).2 = (applyUpdateOne coll d).2 := by
  obtain ⟨sv, hsv1, hsv2⟩ := hsv
  obtain ⟨iv, hiv1, hiv2⟩ := hiv
  have hndS : (assocKeys (stripUndef dprev)).Nodup :=
    (assocKeys_stripUndef_sublist dprev).nodup hnd
  have hsd_shop : assocGet (stripUndef dprev) shopKey = some sv :=
    assocGet_stripUndef_some hnd hsv1 hsv2
  have hsd_id : assocGet (stripUndef dprev) shopifyIdKey = some iv :=
    assocGet_stripUndef_some hnd hiv1 hiv2
  have hsdkey : filterMatches (stripUndef dprev) d = false := by
    rw [filterMatches_left_congr d (hsd_shop.trans hsv1.symm) (hsd_id.trans hiv1.symm)]
    exact hkey
  intro coll
  induction coll with
  | nil =>
    show (applyUpdateOne [stripUndef dprev] d).2 = (applyUpdateOne [] d).2
    unfold applyUpdateOne
    rw [hsdkey]
    rfl
  | cons r rs ih =>
    by_cases hm : filterMatches r dprev = true
    · have hm2 := hm
      unfold filterMatches at hm2
      rw [decide_eq_true_eq] at hm2
      have hr_shop : assocGet r shopKey = some sv := hm2.1.trans hsv1
      have hr_id : assocGet r shopifyIdKey = some iv := hm2.2.trans hiv1
      have hset_shop : assocGet (applySet r (stripUndef dprev)) shopKey = some sv := by
        rw [assocGet_applySet hndS r shopKey, hsd_shop]
      have hset_id : assocGet (applySet r (stripUndef dprev)) shopifyIdKey = some iv := by
        rw [assocGet_applySet hndS r shopifyIdKey, hsd_id]
      have hrd : filterMatches r d = false := by
        cases hfm : filterMatches r d with
        | false => rfl
        | true =>
          exfalso
          unfold filterMatches at hfm
          rw [decide_eq_true_eq] at hfm
          have hsame : sameKeyDoc dprev d = true := by
            unfold sameKeyDoc
            rw [decide_eq_true_eq]
            exact ⟨hsv1.trans (hr_shop.symm.trans hfm.1),
                   hiv1.trans (hr_id.symm.trans hfm.2)⟩
          rw [hsame] at hkey
          exact Bool.noConfusion hkey
      have hset_d : filterMatches (applySet r (stripUndef dprev)) d = false := by
        rw [filterMatches_left_congr d (hset_shop.trans hr_shop.symm)
          (hset_id.trans hr_id.symm)]
        exact hrd
      rw [applyUpdateOne_cons_true hm]
      dsimp only
      rw [@applyUpdateOne_cons_false (applySet r (stripUndef dprev)) rs d hset_d,
          @applyUpdateOne_cons_false r rs d hrd]
    · have hm1 : filterMatches r dprev = false := by
        cases hfm : filterMatches r dprev with
        | false => rfl
        | true => exact absurd hfm hm
      rw [applyUpdateOne_cons_false hm1]
      dsimp only
      cases hrd : filterMatches r d with
      | true =>
        rw [@applyUpdateOne_cons_true r ((applyUpdateOne rs dprev).1) d hrd,
            @applyUpdateOne_cons_true r rs d hrd]
      | false =>
        rw [@applyUpdateOne_cons_false r ((applyUpdateOne rs dprev).1) d hrd,
            @applyUpdateOne_cons_false r rs d hrd]
        dsimp only
        exact ih

theorem bulkStep_matchedMod {coll : List Obj} {res : BulkRes} {d : Obj}
    (h : (applyUpdateOne coll d).2 = .matchedMod) :
    bulkStep (coll, res) d =
      ((applyUpdateOne coll d).1,
        ⟨res.upsertedCount, res.modifiedCount + 1, res.matchedCount + 1⟩) := by
  unfold bulkStep
  dsimp only
  rw [h]

/-- A bulk write whose every document matches an existing record and changes
it adds the batch length to both `matchedCount` and `modifiedCount`. -/
theorem bulkWrite_all_matchedMod :
    ∀ (docs : List Obj) (coll : List Obj) (res : BulkRes),
      (∀ d ∈ docs, (applyUpdateOne coll d).2 = .matchedMod) →
      List.Pairwise (fun a b => sameKeyDoc a b = false) docs →
      (∀ d ∈ docs, ((∃ v, assocGet d shopKey = some v ∧ v ≠ .undef) ∧
        (∃ v, assocGet d shopifyIdKey = some v ∧ v ≠ .undef)) ∧
        (assocKeys d).Nodup) →
      (docs.foldl bulkStep (coll, res)).2 =
        ⟨res.upsertedCount, res.modifiedCount + docs.length,
          res.matchedCount + docs.length⟩ := by
  intro docs
  induction docs with
  | nil =>
    intro coll res _ _ _
    show res = ⟨res.upsertedCount, res.modifiedCount + 0, res.matchedCount + 0⟩
    simp
  | cons d ds ih =>
    intro coll res hmm hpair hdef
    obtain ⟨hd1, hds1⟩ := List.pairwise_cons.mp hpair
    rw [List.foldl_cons, bulkStep_matchedMod (hmm d (List.mem_cons_self d ds))]
    rw [ih (applyUpdateOne coll d).1
        ⟨res.upsertedCount, res.modifiedCount + 1, res.matchedCount + 1⟩
        (fun d2 hd2 => by
          rw [applyUpdateOne_outcome_stable (hd1 d2 hd2)
            (hdef d (List.mem_cons_self d ds)).1.1
            (hdef d (List.mem_cons_self d ds)).1.2
            (hdef d (List.mem_cons_self d ds)).2 coll]
          exact hmm d2 (List.mem_cons_of_mem d hd2))
        hds1
        (fun d2 hd2 => hdef d2 (List.mem_cons_of_mem d hd2))]
    have e2 : res.modifiedCount + 1 + ds.length =
        res.modifiedCount + (d :: ds).length := by
      simp only [List.length_cons]
      omega
    have e3 : res.matchedCount + 1 + ds.length =
        res.matchedCount + (d :: ds).length := by
      simp only [List.length_cons]
      omega
    rw [e2, e3]

/-- C10: the count `upsertDocuments` returns (`upsertedCount + modifiedCount
+ matchedCount`) can exceed the number of documents in the batch: a document
that matches an existing record and changes its fields is counted in both
`matchedCount` and `modifiedCount`, so a batch of `n` documents that all
already exist with differing field values (distinct keys within the batch,
well-formed key fields) yields a saved count of exactly `2 * n`, which is
strictly greater than the `pulled` count `n` reported alongside it in the
sync summary. -/
theorem upsertDocuments_double_count (coll docs : List Obj)
    (hne : docs ≠ [])
    (hmm : ∀ d ∈ docs, (applyUpdateOne coll d).2 = .matchedMod)
    (hpair : List.Pairwise (fun a b => sameKeyDoc a b = false) docs)
    (hdef : ∀ d ∈ docs, ((∃ v, assocGet d shopKey = some v ∧ v ≠ .undef) ∧
      (∃ v, assocGet d shopifyIdKey = some v ∧ v ≠ .undef)) ∧
      (assocKeys d).Nodup) :
    (upsertDocuments coll docs).2 = 2 * docs.length ∧
      docs.length < (upsertDocuments coll docs).2 := by
  have hcount : (upsertDocuments coll docs).2 = 2 * docs.length := by
    unfold upsertDocuments
    rw [if_neg (by simp [List.isEmpty_iff, hne])]
    dsimp only
    unfold bulkWrite
    rw [bulkWrite_all_matchedMod docs coll ⟨0, 0, 0⟩ hmm hpair hdef]
    dsimp only
    omega
  refine ⟨hcount, ?_⟩
  rw [hcount]
  have hlen : 0 < docs.length := List.length_pos.mpr hne
  omega

/-- Witness for C10: against a collection already holding the stripped
mapped document of `c2raw1`, upserting the one-element batch `[c10doc]`
(same customer, changed `totalSpent`) reports a saved count of 2 for a
batch of length 1. -/
theorem upsertDocuments_double_count_witness :
    (upsertDocuments [stripUndef c2doc1] [c10doc]).2 = 2 ∧
      (1 : Nat) < (upsertDocuments [stripUndef c2doc1] [c10doc]).2 := by
  have h := upsertDocuments_double_count [stripUndef c2doc1] [c10doc]
    (by simp)
    (by
      intro d hd
      rw [List.mem_singleton] at hd
      subst hd
      decide)
    (by simp)
    (by
      intro d hd
      rw [List.mem_singleton] at hd
      subst hd
      exact ⟨⟨⟨(assocGet c10doc shopKey).getD .undef, by decide, by decide⟩,
        ⟨(assocGet c10doc shopifyIdKey).getD .undef, by decide, by decide⟩⟩, by decide⟩)
  exact ⟨h.1, h.2⟩

end XenoFde
